import Mathlib

/-!
# Verification of the loan-tracker natural-language command pipeline

Shallow embedding of the core of the `loan-tracker-mcp` repository:

* `dashboard/src/pages/api/parse-command.ts` — the parse endpoint (`handler`,
  `bad`, `extractJSON`);
* the chat component (`AiLoanAssistantPro`): the `onSend` flow, the `execute`
  dispatcher with its per-action guards, the three-tier fuzzy loan lookup of
  the narrowed `get_loans` branch, and `deriveLoan`;
* `supabase/functions/loan-manager/index.ts` — the Edge Function (`serve`,
  `isISODate`, `normalizePaidBy`, `resolveLoanIdByName`) together with the
  `decrement_loan_balance` SQL routine documented in the README;
* `src/index.ts` — `computeProjection`.

Modelling conventions:
* JSON values are the `Json` inductive below; JavaScript truthiness is
  `jsTruthy`.  Property access on a non-object yields `none` (undefined).
* JavaScript numbers are modelled as `Rat` (no floating point claim is in
  scope; all arithmetic involved is exact on the inputs considered).
* `String.trim` models JavaScript `String.prototype.trim`, and `strLower`
  (ASCII lowercasing) models `toLowerCase` on the ASCII names involved.
* Clock instants are epoch milliseconds (`Int`); `new Date().toISOString()`
  is modelled by `isoDateStringOfMs` via the proleptic Gregorian calendar.
* String literals use the typographic apostrophe `’` in place of the ASCII
  one that appears in a few source messages.
-/

/-- JSON values, as produced by `JSON.parse`. -/
inductive Json where
  | null
  | bool (b : Bool)
  | num (q : Rat)
  | str (s : String)
  | arr (items : List Json)
  | obj (fields : List (String × Json))

/-- First-match field lookup in an object’s field list. -/
def lookupField : List (String × Json) → String → Option Json
  | [], _ => none
  | (k, v) :: rest, key => if k = key then some v else lookupField rest key

/-- JavaScript property access `j?.key`: `none` models `undefined`
(also for access on a non-object). -/
def jGet : Json → String → Option Json
  | Json.obj fields, key => lookupField fields key
  | _, _ => none

/-- JavaScript truthiness of a JSON value. -/
def jsTruthy : Json → Bool
  | Json.null => false
  | Json.bool b => b
  | Json.num q => if q = 0 then false else true
  | Json.str s => if s = "" then false else true
  | Json.arr _ => true
  | Json.obj _ => true

/-- Truthiness of a possibly-absent value (`undefined` is falsy). -/
def truthyO : Option Json → Bool
  | some j => jsTruthy j
  | none => false

/-- Is the value a number (JavaScript `typeof v === "number"`)? -/
def isNumO : Option Json → Bool
  | some (Json.num _) => true
  | _ => false

/-- Is the value a string (JavaScript `typeof v === "string"`)? -/
def isStrO : Option Json → Bool
  | some (Json.str _) => true
  | _ => false

/-- ASCII lowercasing, modelling `String.prototype.toLowerCase` on the
ASCII data this application handles. -/
def strLower (s : String) : String := String.mk (s.data.map Char.toLower)

/-- ASCII whitespace (the whitespace actually exercised here). -/
def isWsChar (c : Char) : Bool := c = ' ' ∨ c = '\t' ∨ c = '\n' ∨ c = '\r'

/-- `String.prototype.trim`: drop leading and trailing whitespace. -/
def jsTrim (s : String) : String :=
  String.mk (((s.data.dropWhile isWsChar).reverse.dropWhile isWsChar).reverse)

/-- `isISODate` from the Edge Function: the regular expression
`^\d{4}-\d{2}-\d{2}$` applied to a string. -/
def isISODate (s : String) : Bool :=
  match s.data with
  | [a, b, c, d, e, f, g, h, i, j] =>
    a.isDigit && b.isDigit && c.isDigit && d.isDigit && e = '-' &&
    f.isDigit && g.isDigit && h = '-' && i.isDigit && j.isDigit
  | _ => false

/-- `normalizePaidBy` from the Edge Function.  `none` models an absent
(`undefined`) or `null` argument, both falsy. -/
def normalizePaidBy : Option String → String
  | none => "Steven"
  | some v =>
    if v = "" then "Steven"
    else
      let p := strLower (jsTrim v)
      if p = "i" ∨ p = "me" ∨ p = "myself" ∨ p = "steven" then "Steven"
      else if p = "katerina" then "Katerina"
      else "Steven"

/-! ## Calendar arithmetic

`new Date().toISOString().slice(0, 10)` is the UTC calendar date of the
current instant.  The civil-from-days conversion below is the standard
proleptic Gregorian algorithm on integer day counts since 1970-01-01. -/

/-- Civil `(year, month, day)` of a day count since 1970-01-01. -/
def civilFromDays (z0 : Int) : Int × Int × Int :=
  let z := z0 + 719468
  let era := z.fdiv 146097
  let doe := z - era * 146097
  let yoe := (doe - doe.fdiv 1460 + doe.fdiv 36524 - doe.fdiv 146096).fdiv 365
  let y := yoe + era * 400
  let doy := doe - (365 * yoe + yoe.fdiv 4 - yoe.fdiv 100)
  let mp := (5 * doy + 2).fdiv 153
  let d := doy - (153 * mp + 2).fdiv 5 + 1
  let m := mp + (if mp < 10 then 3 else -9)
  (y + (if m ≤ 2 then 1 else 0), m, d)

/-- Day count since 1970-01-01 of a civil `(year, month, day)`. -/
def daysFromCivil (y0 m d : Int) : Int :=
  let y := if m ≤ 2 then y0 - 1 else y0
  let era := y.fdiv 400
  let yoe := y - era * 400
  let doy := (153 * (m + (if 2 < m then -3 else 9)) + 2).fdiv 5 + d - 1
  let doe := yoe * 365 + yoe.fdiv 4 - yoe.fdiv 100 + doy
  era * 146097 + doe - 719468

/-- Fixed-width decimal rendering of a nonnegative integer. -/
def padNum (width : Nat) (n : Int) : String :=
  let s := toString n.toNat
  String.mk (List.replicate (width - s.length) '0') ++ s

/-- `YYYY-MM-DD` string of a day count since 1970-01-01. -/
def isoDateStringOfDay (day : Int) : String :=
  match civilFromDays day with
  | (y, m, d) => padNum 4 y ++ "-" ++ padNum 2 m ++ "-" ++ padNum 2 d

/-- Day count containing an epoch-millisecond instant (UTC). -/
def epochDayOfMs (ms : Int) : Int := ms.fdiv 86400000

/-- `new Date(ms).toISOString().slice(0, 10)`: the UTC calendar date of an
epoch-millisecond instant. -/
def isoDateStringOfMs (ms : Int) : String := isoDateStringOfDay (epochDayOfMs ms)

/-- Day count of the first Sunday of month `m` in year `y`
(1970-01-01 was a Thursday, so weekday of day `d` is `(d + 4) % 7` with
`0` = Sunday). -/
def firstSundayDay (y m : Int) : Int :=
  let d1 := daysFromCivil y m 1
  d1 + (7 - (d1 + 4).emod 7).emod 7

/-- Modelled from the spec: the reference timezone is America/Chicago.
US daylight saving time starts at 02:00 local (08:00 UTC) on the second
Sunday of March and ends at 02:00 local (07:00 UTC) on the first Sunday
of November; the offset is UTC−6 (CST) otherwise and UTC−5 (CDT) during
DST.  (The repository itself never computes this in the Edge Function;
this definition exists only to compare the code’s behaviour against the
spec’s words.) -/
def chicagoOffsetMs (ms : Int) : Int :=
  let y := (civilFromDays (epochDayOfMs ms)).1
  let dstStart := (firstSundayDay y 3 + 7) * 86400000 + 8 * 3600000
  let dstEnd := firstSundayDay y 11 * 86400000 + 7 * 3600000
  if dstStart ≤ ms ∧ ms < dstEnd then -18000000 else -21600000

/-- Modelled from the spec: the calendar date "today" in America/Chicago
at a given epoch-millisecond instant. -/
def chicagoDateStringOfMs (ms : Int) : String :=
  isoDateStringOfMs (ms + chicagoOffsetMs ms)

example : isISODate "2025-08-23" = true := by decide
example : isISODate "08/23/2025" = false := by decide
example : normalizePaidBy (some "KATERINA") = "Katerina" := by decide
example : normalizePaidBy (some "Bob") = "Steven" := by decide
example : isoDateStringOfDay 0 = "1970-01-01" := by decide
example : daysFromCivil 2025 1 2 = 20090 := by decide
example : isoDateStringOfDay (daysFromCivil 2025 1 2) = "2025-01-02" := by decide
example : jsTrim "  katerina " = "katerina" := by decide

/-! ## The backend store and the Edge Function (`loan-manager`)

The store is the pair of tables `loan_tracker_loans` / `loan_tracker_payments`
(README schema).  Loan ids are strings (uuids in the source); `nextId` is the
model’s fresh-id counter.  `numeric(12,2)` amounts are `Rat`. -/

/-- A row of `loan_tracker_loans`. -/
structure LoanRow where
  id : String
  name : String
  original_amount : Rat
  current_balance : Rat
  loan_type : String
  term_months : Rat
  loan_date : String
deriving DecidableEq

/-- A row of `loan_tracker_payments`. -/
structure PaymentRow where
  loan_id : String
  amount : Rat
  paid_by : String
  payment_date : String
deriving DecidableEq

/-- The backend store. -/
structure DB where
  loans : List LoanRow
  payments : List PaymentRow
  nextId : Nat
deriving DecidableEq

/-- Postgres `ILIKE` on character lists: `%` matches any sequence (tried via
all suffixes), `_` any single character, any other pattern character matches
case-insensitively. -/
def likeChars : List Char → List Char → Bool
  | [], s => s.isEmpty
  | c :: p, s =>
    if c = '%' then s.tails.any (fun s2 => likeChars p s2)
    else
      match s with
      | [] => false
      | d :: s2 =>
        if c = '_' then likeChars p s2
        else (c.toLower = d.toLower) && likeChars p s2

/-- Postgres `ILIKE` on strings (`value ILIKE pattern`). -/
def ilikeStr (pattern value : String) : Bool := likeChars pattern.data value.data

/-- `resolveLoanIdByName` from the Edge Function: select rows whose `name`
matches `ILIKE name.trim()` (no wildcards are ever added), then prefer a row
whose name equals the (untrimmed) query case-insensitively, else take the
first selected row. -/
def resolveLoanIdByName (db : DB) (name : String) : Option String :=
  let rows := db.loans.filter (fun l => ilikeStr (jsTrim name) l.name)
  match rows with
  | [] => none
  | r0 :: _ =>
    some (((rows.find? (fun l => strLower l.name = strLower name)).getD r0).id)

/-- Result data of a successful Edge Function call. -/
inductive EdgeData where
  | loanData (l : LoanRow)
  | payment (loan_id : String) (amount : Rat) (paid_by : String)
      (payment_date : String)
  | loansData (ls : List LoanRow)
  | deleted (loan_id : String)
deriving DecidableEq

/-- An Edge Function response: `{ success: true, data }` with an HTTP status,
or `{ success: false, error }` with an HTTP status. -/
inductive EdgeResult where
  | ok (status : Nat) (d : EdgeData)
  | err (status : Nat) (msg : String)
deriving DecidableEq

/-- Whether the response reports success. -/
def EdgeResult.isOk : EdgeResult → Bool
  | .ok _ _ => true
  | .err _ _ => false

/-- `id = loan_id ?? (loan_name ? await resolveLoanIdByName(...) : null)`
followed by the `if (!id)` truthiness test, shared by `add_payment` and
`delete_loan`.  `Except.error` models a thrown `TypeError` (caught by the
outer handler as a 500) when a truthy non-string reaches `name.trim()`. -/
def resolvedByName (db : DB) (body : Json) : Except String (Option String) :=
  match jGet body "loan_name" with
  | some (Json.str s) => .ok (if s = "" then none else resolveLoanIdByName db s)
  | some v => if jsTruthy v then .error "name.trim is not a function" else .ok none
  | none => .ok none

/-- See `resolvedByName`; a present non-null `loan_id` short-circuits the
name lookup, and a falsy result fails the `if (!id)` test. -/
def resolvedId (db : DB) (body : Json) : Except String (Option String) :=
  match jGet body "loan_id" with
  | some (Json.str s) => .ok (if s = "" then none else some s)
  | some Json.null => resolvedByName db body
  | some v =>
    if jsTruthy v then .error "unmodelled non-string loan_id" else .ok none
  | none => resolvedByName db body

/-- The `decrement_loan_balance` SQL routine (README):
`current_balance := greatest(0, current_balance - p_amount)`. -/
def decrement_loan_balance (balance amount : Rat) : Rat :=
  max 0 (balance - amount)

/-- The Edge Function’s fallback path: read the current balance and write
`Math.max(0, curr - amount)`. -/
def fallbackBalance (curr amount : Rat) : Rat := max 0 (curr - amount)

/-- The `paid_by` handling of the `add_payment` branch: a destructuring
default of `"Steven"` for an absent field, then `normalizePaidBy`.
A truthy non-string would throw inside `normalizePaidBy` (500). -/
def edgePaidBy : Option Json → Except String String
  | none => .ok (normalizePaidBy (some "Steven"))
  | some (Json.str s) => .ok (normalizePaidBy (some s))
  | some v =>
    if jsTruthy v then .error "v.trim is not a function" else .ok "Steven"

/-- The `create_loan` branch of `serve`.  Validation is exactly
`!name || typeof original_amount !== "number" || !isISODate(loan_date) ||
typeof term_months !== "number" || term_months <= 0`; on success the loan is
inserted with `current_balance` initialised to `original_amount` and
`loan_type` defaulting to `"general"` (`lender` is not inserted). -/
def serveCreateLoan (db : DB) (body : Json) : EdgeResult × DB :=
  let nameV := jGet body "name"
  let amountV := jGet body "original_amount"
  let dateV := jGet body "loan_date"
  let termV := jGet body "term_months"
  let dateOk := match dateV with
    | some (Json.str s) => isISODate s
    | _ => false
  let termOk := match termV with
    | some (Json.num t) => decide (0 < t)
    | _ => false
  if !truthyO nameV || !isNumO amountV || !dateOk || !termOk then
    (.err 400 "create_loan requires name, numeric original_amount, loan_date (YYYY-MM-DD), and positive term_months.", db)
  else
    match nameV, amountV, dateV, termV, jGet body "loan_type" with
    | some (Json.str nm), some (Json.num oa), some (Json.str ld),
        some (Json.num tm), ltV =>
      match (match ltV with
             | none => Except.ok "general"
             | some (Json.str t) => Except.ok t
             | some _ => Except.error "unmodelled loan_type") with
      | .error m => (.err 500 m, db)
      | .ok lt =>
        let newLoan : LoanRow :=
          ⟨"loan-" ++ toString db.nextId, nm, oa, oa, lt, tm, ld⟩
        (.ok 201 (.loanData newLoan),
         { db with loans := db.loans ++ [newLoan], nextId := db.nextId + 1 })
    | _, _, _, _, _ => (.err 500 "unmodelled insert payload", db)

/-- The `add_payment` branch of `serve`: validate the amount, resolve the
loan, default `payment_date` to the UTC calendar date of the server clock
when the supplied value does not pass `isISODate`, normalise `paid_by`,
insert the payment row (the foreign-key constraint makes an insert against a
nonexistent loan throw), and decrement the balance — by the
`decrement_loan_balance` RPC when available (`rpc = true`), else by the
read-then-write fallback. -/
def serveAddPayment (nowMs : Int) (rpc : Bool) (db : DB) (body : Json) :
    EdgeResult × DB :=
  match jGet body "amount" with
  | some (Json.num a) =>
    if a ≤ 0 then
      (.err 400 "add_payment requires a positive numeric ’amount’.", db)
    else
      match resolvedId db body with
      | .error m => (.err 500 m, db)
      | .ok none =>
        (.err 400 "add_payment requires loan_id or valid loan_name.", db)
      | .ok (some id) =>
        let iso := match jGet body "payment_date" with
          | some (Json.str s) => if isISODate s then s else isoDateStringOfMs nowMs
          | _ => isoDateStringOfMs nowMs
        match edgePaidBy (jGet body "paid_by") with
        | .error m => (.err 500 m, db)
        | .ok pb =>
          if db.loans.all (fun l => l.id ≠ id) then
            (.err 500 "insert violates foreign key constraint", db)
          else
            let db1 : DB := { db with payments := db.payments ++ [⟨id, a, pb, iso⟩] }
            let db2 : DB := { db1 with loans := db1.loans.map (fun l =>
              if l.id = id then
                { l with current_balance :=
                    if rpc then decrement_loan_balance l.current_balance a
                    else fallbackBalance l.current_balance a }
              else l) }
            (.ok 200 (.payment id a pb iso), db2)
  | _ => (.err 400 "add_payment requires a positive numeric ’amount’.", db)

/-- The `get_loans` branch of `serve`: a pure read (the derived
`total_paid` / `last_payment` decoration is display data and not modelled). -/
def serveGetLoans (db : DB) : EdgeResult × DB :=
  (.ok 200 (.loansData db.loans), db)

/-- The `delete_loan` branch of `serve`: resolve the loan, then delete its
payments and the loan itself. -/
def serveDeleteLoan (db : DB) (body : Json) : EdgeResult × DB :=
  match resolvedId db body with
  | .error m => (.err 500 m, db)
  | .ok none => (.err 400 "delete_loan requires loan_id or valid loan_name.", db)
  | .ok (some id) =>
    let db1 := { db with payments := db.payments.filter (fun p => p.loan_id ≠ id) }
    let db2 := { db1 with loans := db1.loans.filter (fun l => l.id ≠ id) }
    (.ok 200 (.deleted id), db2)

/-- Display form of a JSON value inside a template string (only used for the
unknown-action error message). -/
def jsToDisplay : Json → String
  | Json.str s => s
  | Json.null => "null"
  | Json.bool b => if b then "true" else "false"
  | Json.num q => toString q
  | Json.arr _ => "[array]"
  | Json.obj _ => "[object Object]"

/-- The Edge Function `serve` body (POST path): dispatch on `body.action`. -/
def serve (nowMs : Int) (rpc : Bool) (db : DB) (body : Json) :
    EdgeResult × DB :=
  match jGet body "action" with
  | some (Json.str "create_loan") => serveCreateLoan db body
  | some (Json.str "add_payment") => serveAddPayment nowMs rpc db body
  | some (Json.str "get_loans") => serveGetLoans db
  | some (Json.str "delete_loan") => serveDeleteLoan db body
  | some v =>
    if jsTruthy v then (.err 400 ("Unknown action: " ++ jsToDisplay v), db)
    else (.err 400 "Missing ’action’.", db)
  | none => (.err 400 "Missing ’action’.", db)

/-! ## The parse endpoint (`/api/parse-command`)

The handler’s observable behaviour is a function of: whether the OpenAI key
is configured, the request method, the request body, the outcome of the
single upstream call, and the ambient `JSON.parse` (taken as a parameter
`parseJson : String → Option Json`, `none` modelling a parse exception). -/

/-- Outcome of `fetch` against the upstream language-model service. -/
inductive Upstream where
  | throws (msg : String)
  | httpErr (status : Nat) (text : String)
  | ok (payload : Json)

/-- The five-field response body of the parse endpoint.  The `action` field
is kept as a `Json` value because the success path echoes whatever truthy
value the model supplied. -/
structure RespBody where
  action : Json
  parameters : Json
  message : String
  need_followup : Bool
  followup_question : Option String

/-- `bad(res, status, message)`: the uniform failure body. -/
def badBody (msg : String) : RespBody :=
  ⟨Json.str "unknown", Json.obj [], msg, false, none⟩

/-- `trim` then `JSON.parse` inside a `try`: an empty trimmed string or a
parse exception falls through to the next extractor. -/
def tryParseText (parseJson : String → Option Json) (s : String) : Option Json :=
  if jsTrim s = "" then none else parseJson (jsTrim s)

/-- Walk a `content` array for the first string `text` member that parses. -/
def firstTextParse (parseJson : String → Option Json) : List Json → Option Json
  | [] => none
  | c :: rest =>
    match jGet c "text" with
    | some (Json.str t) =>
      match tryParseText parseJson t with
      | some j => some j
      | none => firstTextParse parseJson rest
    | _ => firstTextParse parseJson rest

/-- Walk an `output` array of items, each holding a `content` array. -/
def firstItemParse (parseJson : String → Option Json) : List Json → Option Json
  | [] => none
  | it :: rest =>
    match jGet it "content" with
    | some (Json.arr cs) =>
      match firstTextParse parseJson cs with
      | some j => some j
      | none => firstItemParse parseJson rest
    | _ => firstItemParse parseJson rest

/-- `extractJSON`: layered extraction — the `output_text` convenience field,
then the `output[].content[].text` walk, then the legacy
`choices[0].message.content` shape. -/
def extractJSON (parseJson : String → Option Json) (payload : Json) : Option Json :=
  match (match jGet payload "output_text" with
         | some (Json.str s) => tryParseText parseJson s
         | _ => none) with
  | some j => some j
  | none =>
    match (match jGet payload "output" with
           | some (Json.arr items) => firstItemParse parseJson items
           | _ => none) with
    | some j => some j
    | none =>
      match jGet payload "choices" with
      | some (Json.arr (c0 :: _)) =>
        match jGet c0 "message" with
        | some m =>
          match jGet m "content" with
          | some (Json.str t) => tryParseText parseJson t
          | _ => none
        | none => none
      | _ => none

/-- `typeof parsed === "object"` for a truthy parsed value: arrays and
objects pass, `null` / numbers / strings / booleans do not. -/
def objLike : Json → Bool
  | Json.arr _ => true
  | Json.obj _ => true
  | _ => false

/-- The structural-validation test on `followup_question` that fails with
502: `need_followup && fq !== null && typeof fq !== "string" &&
fq !== undefined`. -/
def fqBadType : Option Json → Bool
  | none => false
  | some Json.null => false
  | some (Json.str _) => false
  | some _ => true

/-- `parameters || {}` (truthiness fallback, used by the minimal per-action
checks). -/
def paramsOrEmpty : Option Json → Json
  | some v => if jsTruthy v then v else Json.obj []
  | none => Json.obj []

/-- `parameters ?? {}` (nullish fallback, used when echoing the response). -/
def paramsNullish : Option Json → Json
  | some Json.null => Json.obj []
  | some v => v
  | none => Json.obj []

/-- `v === "name"` for a possibly-absent JSON value. -/
def actionIs (v : Option Json) (name : String) : Bool :=
  match v with
  | some (Json.str s) => if s = name then true else false
  | _ => false

/-- The handler from structural validation onward, given the extracted
object-like `parsed` value. -/
def handlerValidate (parsed : Json) : Nat × RespBody :=
  let actionV := jGet parsed "action"
  let paramsV := jGet parsed "parameters"
  match jGet parsed "message", jGet parsed "need_followup" with
  | some (Json.str msg), some (Json.bool nf) =>
    if !truthyO actionV || (nf && fqBadType (jGet parsed "followup_question")) then
      (502, badBody "Structured output missing required fields.")
    else
      let p := paramsOrEmpty paramsV
      if !nf && actionIs actionV "create_loan" &&
          (!isStrO (jGet p "loan_name") || !isNumO (jGet p "amount")) then
        (400, badBody "Missing loan_name or amount for create_loan.")
      else if !nf && actionIs actionV "add_payment" &&
          (!isStrO (jGet p "loan_name") || !isNumO (jGet p "amount")) then
        (400, badBody "Missing loan_name or amount for add_payment.")
      else if !nf && actionIs actionV "delete_loan" &&
          (!isStrO (jGet p "loan_name") && !isStrO (jGet p "loan_id")) then
        (400, badBody "Missing loan_name (or loan_id) for delete_loan.")
      else if actionIs actionV "create_loan" && !nf &&
          (let prm := (paramsV.getD Json.null);
           !truthyO (jGet prm "loan_name") || !truthyO (jGet prm "amount") ||
           !truthyO (jGet prm "loan_date") || !truthyO (jGet prm "term_months")) then
        (400, badBody "Missing required fields for create_loan.")
      else
        (200,
         ⟨actionV.getD Json.null, paramsNullish paramsV, msg, nf,
          if nf then
            some (match jGet parsed "followup_question" with
                  | some (Json.str s) => s
                  | _ => "Could you clarify?")
          else none⟩)
  | _, _ => (502, badBody "Structured output missing required fields.")

/-- The handler after method / configuration / input checks: run the
upstream call’s outcome through extraction and validation. -/
def handlerUpstream (up : Upstream) (parseJson : String → Option Json) :
    Nat × RespBody :=
  match up with
  | .throws m => (500, badBody ("Parser failed: " ++ m))
  | .httpErr st txt => (st, badBody ("OpenAI error: " ++ txt))
  | .ok payload =>
    match extractJSON parseJson payload with
    | none => (502, badBody "Parser returned no JSON.")
    | some parsed =>
      if !objLike parsed then (502, badBody "Parser returned no JSON.")
      else handlerValidate parsed

/-- The parse endpoint handler.  Always returns a status and a five-field
body (the `try`/`catch` in the source makes it total: a thrown upstream
error becomes `Upstream.throws`). -/
def handler (apiKeySet : Bool) (method : String) (reqBody : Json)
    (up : Upstream) (parseJson : String → Option Json) : Nat × RespBody :=
  if method ≠ "POST" then (405, badBody "Method not allowed.")
  else if !apiKeySet then (500, badBody "OPENAI_API_KEY is not set.")
  else
    match jGet reqBody "command" with
    | some (Json.str c) =>
      if c = "" then (400, badBody "Missing ’command’ string in body.")
      else handlerUpstream up parseJson
    | _ => (400, badBody "Missing ’command’ string in body.")

/-! ## The chat component (`AiLoanAssistantPro`)

`onSend` branches on the parsed result: the follow-up branch fires on
`parsed.need_followup && parsed.followup_question` (truthiness of the
question string), the unknown branch on `parsed.action === "unknown"`, and
everything else reaches `execute`.  `execute` performs at most one
`callLoanManager` fetch per action, guarded by the per-action checks. -/

/-- The decision taken by `onSend` for a parsed result. -/
inductive FlowStep where
  | followupQ (q : String)
  | unknownReply (msg : String)
  | execStep
deriving DecidableEq

/-- The `onSend` branch decision. -/
def onSendFlow (p : RespBody) : FlowStep :=
  let fqTruthy := match p.followup_question with
    | some q => if q = "" then false else true
    | none => false
  if p.need_followup && fqTruthy then .followupQ (p.followup_question.getD "")
  else if actionIs (some p.action) "unknown" then .unknownReply p.message
  else .execStep

/-- What `execute` does before (or instead of) contacting the backend. -/
inductive UIStep where
  | errMsg (content : String)
  | edgeCall (body : Json)
  | notExecutable

/-- The list of missing create_loan fields assembled by the UI-side guard. -/
def uiCreateMissing (prm : Json) : List String :=
  (if truthyO (jGet prm "loan_name") then [] else ["loan name"]) ++
  (if isNumO (jGet prm "amount") then [] else ["amount"]) ++
  (if truthyO (jGet prm "loan_date") then [] else ["loan date (YYYY-MM-DD)"]) ++
  (if isNumO (jGet prm "term_months") then [] else ["term in months"])

/-- The error chat message of the UI-side create_loan guard. -/
def uiMissingMsg (missing : List String) : String :=
  "I still need: " ++ String.intercalate ", " missing ++ "." ++
  "\nTip: you can say “Create a loan for ’Mirror’ for $1,000 on 2025-08-01 with 18 months financing.”"

/-- `execute`, restricted to its control decision: which error message is
returned without contacting the backend, or which body is sent to the
`loan-manager` Edge Function.  `JSON.stringify` drops `undefined`-valued
fields, hence the conditional field lists. -/
def uiExecuteCall (p : RespBody) : UIStep :=
  let prm := p.parameters
  match p.action with
  | Json.str "get_loans" => .edgeCall (Json.obj [("action", Json.str "get_loans")])
  | Json.str "add_payment" =>
    if !truthyO (jGet prm "loan_name") || !isNumO (jGet prm "amount") then
      .errMsg "I need a loan name and a numeric amount to add a payment."
    else
      .edgeCall (Json.obj
        ([("action", Json.str "add_payment"),
          ("loan_name", (jGet prm "loan_name").getD Json.null),
          ("amount", (jGet prm "amount").getD Json.null),
          ("paid_by",
           match jGet prm "person" with
           | none => Json.str "Steven"
           | some Json.null => Json.str "Steven"
           | some v => v)] ++
         (match jGet prm "payment_date" with
          | none => []
          | some v => [("payment_date", v)])))
  | Json.str "create_loan" =>
    let missing := uiCreateMissing prm
    if missing ≠ [] then .errMsg (uiMissingMsg missing)
    else
      .edgeCall (Json.obj
        [("action", Json.str "create_loan"),
         ("name", (jGet prm "loan_name").getD Json.null),
         ("original_amount", (jGet prm "amount").getD Json.null),
         ("loan_type",
          if truthyO (jGet prm "loan_type") then (jGet prm "loan_type").getD Json.null
          else Json.str "general"),
         ("term_months", (jGet prm "term_months").getD Json.null),
         ("loan_date", (jGet prm "loan_date").getD Json.null)])
  | Json.str "delete_loan" =>
    .edgeCall (Json.obj
      ([("action", Json.str "delete_loan")] ++
       (match jGet prm "loan_id" with
        | none => []
        | some v => [("loan_id", v)]) ++
       (match jGet prm "loan_name" with
        | none => []
        | some v => [("loan_name", v)])))
  | _ => .notExecutable

/-- The body `onSend` sends to the Edge Function, if any: `execute` runs
only when neither the follow-up branch nor the unknown branch fired. -/
def onSendEdgeCall (p : RespBody) : Option Json :=
  match onSendFlow p with
  | .execStep =>
    match uiExecuteCall p with
    | .edgeCall b => some b
    | _ => none
  | _ => none

/-! The narrowed `get_loans` branch: three-tier fuzzy lookup over the
fetched loan names, and the not-found message naming the loan count. -/

/-- Case-insensitive prefix test on strings (JavaScript `startsWith` after
both sides were lowercased). -/
def startsWithChars (pre s : List Char) : Bool :=
  match pre, s with
  | [], _ => true
  | _ :: _, [] => false
  | c :: p2, d :: s2 => (c = d) && startsWithChars p2 s2

/-- Substring test (JavaScript `includes`). -/
def includesChars (sub s : List Char) : Bool :=
  match s with
  | [] => sub.isEmpty
  | _ :: s2 => startsWithChars sub s || includesChars sub s2

/-- The three-tier lookup of the narrowed `get_loans` branch: with
`q = loan_name.trim().toLowerCase()`, try an exact lowercased match, then a
lowercased prefix match, then a lowercased substring match, each tier taking
the first matching loan. -/
def uiFindTarget (names : List String) (loan_name : String) : Option String :=
  match names.find? (fun n => strLower n = strLower (jsTrim loan_name)) with
  | some n => some n
  | none =>
    match names.find?
        (fun n => startsWithChars (strLower (jsTrim loan_name)).data (strLower n).data) with
    | some n => some n
    | none =>
      names.find?
        (fun n => includesChars (strLower (jsTrim loan_name)).data (strLower n).data)

/-- The not-found message of the narrowed `get_loans` branch (names the
current loan count). -/
def uiNotFoundMsg (loan_name : String) (count : Nat) : String :=
  "I couldn’t find a loan named “" ++ loan_name ++ "”. I currently have " ++
  toString count ++ " loan" ++ (if count = 1 then "" else "s") ++ "."

/-- Outcome of the narrowed `get_loans` branch. -/
inductive NarrowOutcome where
  | found (name : String)
  | notFound (msg : String)
deriving DecidableEq

/-- Narrow the fetched loans by the requested name, or report not-found. -/
def uiNarrow (names : List String) (loan_name : String) : NarrowOutcome :=
  match uiFindTarget names loan_name with
  | some n => .found n
  | none => .notFound (uiNotFoundMsg loan_name names.length)

/-! ## The display projection (`computeProjection` in `src/index.ts`)

A payment is modelled by its amount and the epoch-day index of its
`payment_date` (for valid `YYYY-MM-DD` strings, the lexicographic sort the
source performs agrees with the numeric order of day indices, and
`new Date(iso)` is the UTC midnight of that day, so consecutive millisecond
differences divided by 86400000 are exact whole days). -/

/-- A payment as seen by the projection. -/
structure PaymentP where
  amount : Rat
  payday : Int
deriving DecidableEq

/-- The sort `[...payments].sort((a, b) =>
a.payment_date.localeCompare(b.payment_date))`: any stable sort by date;
every sorted-by-date order yields the same projection outputs. -/
def sortPayments (ps : List PaymentP) : List PaymentP :=
  List.insertionSort (fun a b => a.payday ≤ b.payday) ps

/-- JavaScript `Math.round`: round half toward positive infinity. -/
def jsRound (q : Rat) : Int := ⌊q + 1 / 2⌋

/-- `Math.max(1, Math.round((curr - prev) / 86400000))` over consecutive
elements of the date-sorted list. -/
def dayDiffs : List Int → List Int
  | [] => []
  | [_] => []
  | a :: b :: t => max 1 (b - a) :: dayDiffs (b :: t)

/-- `computeProjection`: with no payments or a non-positive remaining
balance, everything is absent; otherwise the mean payment is always
computed; with at least two payments the mean day gap is the rounded mean
of consecutive day differences; the projected payoff day exists when the
mean payment is a truthy positive number and the mean gap is truthy, and
advances the last payment’s day by `ceil(remaining / mean) * gap`. -/
def computeProjection (ps : List PaymentP) (remaining : Rat) :
    Option Rat × Option Int × Option Int :=
  if ps = [] ∨ remaining ≤ 0 then (none, none, none)
  else
    let sorted := sortPayments ps
    let amounts := sorted.map (fun p => p.amount)
    let average_payment : Rat := amounts.sum / (amounts.length : Rat)
    let gap : Option Int :=
      if 2 ≤ sorted.length then
        let ds := dayDiffs (sorted.map (fun p => p.payday))
        some (jsRound ((ds.sum : Rat) / (ds.length : Rat)))
      else none
    let projected : Option Int :=
      match sorted.getLast?, gap with
      | some lastP, some g =>
        if (if average_payment = 0 then false else true) && 0 < average_payment &&
            (if g = 0 then false else true) then
          some (lastP.payday + ⌈remaining / average_payment⌉ * g)
        else none
      | _, _ => none
    (some average_payment, gap, projected)

/-! ## Concrete request-body builders used in the statements below -/

/-- An `add_payment` body carrying only `loan_id` and `amount`. -/
def payBodyId (id : String) (amt : Rat) : Json :=
  Json.obj [("action", Json.str "add_payment"), ("loan_id", Json.str id),
            ("amount", Json.num amt)]

/-- An `add_payment` body additionally carrying `paid_by`. -/
def payBodyPaidBy (id : String) (amt : Rat) (pb : String) : Json :=
  Json.obj [("action", Json.str "add_payment"), ("loan_id", Json.str id),
            ("amount", Json.num amt), ("paid_by", Json.str pb)]

/-- An `add_payment` body additionally carrying `payment_date`. -/
def payBodyDate (id : String) (amt : Rat) (dt : String) : Json :=
  Json.obj [("action", Json.str "add_payment"), ("loan_id", Json.str id),
            ("amount", Json.num amt), ("payment_date", Json.str dt)]

/-- An `add_payment` body targeting a loan by name. -/
def payBodyName (nm : String) (amt : Rat) : Json :=
  Json.obj [("action", Json.str "add_payment"), ("loan_name", Json.str nm),
            ("amount", Json.num amt)]

/-- A fully explicit `create_loan` body. -/
def createBody (nm : String) (oa : Rat) (ld : String) (tm : Rat) : Json :=
  Json.obj [("action", Json.str "create_loan"), ("name", Json.str nm),
            ("original_amount", Json.num oa), ("loan_date", Json.str ld),
            ("term_months", Json.num tm)]

/-- Iterate `serve` over a list of payments against a fixed loan id; each
element carries the amount and whether the `decrement_loan_balance` RPC was
available for that call. -/
def runPayments (nowMs : Int) (id : String) (db : DB) (ps : List (Rat × Bool)) : DB :=
  ps.foldl (fun d x => (serve nowMs x.2 d (payBodyId id x.1)).2) db

/-- Membership in the five enumerated action values of the contract. -/
def isKnownAction : Json → Bool
  | Json.str "create_loan" => true
  | Json.str "add_payment" => true
  | Json.str "get_loans" => true
  | Json.str "delete_loan" => true
  | Json.str "unknown" => true
  | _ => false

/-- An upstream payload whose `output_text` is the sentinel string "X". -/
def mkPayload : Json := Json.obj [("output_text", Json.str "X")]

/-- A `JSON.parse` that parses exactly the sentinel "X" to `parsed`. -/
def mkParse (parsed : Json) : String → Option Json :=
  fun s => if s = "X" then some parsed else none

/-- A request body carrying a nonempty command. -/
def cmdBody : Json := Json.obj [("command", Json.str "do something")]

/-- A model output whose action is outside the enumerated set. -/
def parsedFoo : Json :=
  Json.obj [("action", Json.str "foo"), ("parameters", Json.obj []),
            ("message", Json.str "hi"), ("need_followup", Json.bool false)]

/-- A model output with `need_followup = true` but an *empty*
`followup_question`, and complete add_payment parameters. -/
def parsedNF : Json :=
  Json.obj [("action", Json.str "add_payment"),
            ("parameters", Json.obj [("loan_name", Json.str "Couch"),
                                     ("amount", Json.num 50)]),
            ("message", Json.str "ok"), ("need_followup", Json.bool true),
            ("followup_question", Json.str "")]

/-- A compliant model output requesting `get_loans`. -/
def parsedGet : Json :=
  Json.obj [("action", Json.str "get_loans"), ("parameters", Json.obj []),
            ("message", Json.str "ok"), ("need_followup", Json.bool false)]

/-- A concrete loan used by witnesses. -/
def loanW : LoanRow := ⟨"L1", "Couch", 500, 500, "general", 12, "2025-01-01"⟩

/-- A concrete one-loan store used by witnesses. -/
def dbW : DB := ⟨[loanW], [], 2⟩

/-- The instant 2025-01-02T03:00:00Z in epoch milliseconds: its UTC
calendar date (2025-01-02) differs from its America/Chicago date
(2025-01-01, the offset being UTC−6 in January). -/
def msJan : Int := 1735786800000

/-- A store holding one loan named "Tesla Model 3". -/
def dbTesla : DB :=
  ⟨[⟨"T1", "Tesla Model 3", 100, 100, "general", 12, "2025-01-01"⟩], [], 2⟩

/-! # Theorems -/

theorem dayDiffs_length (l : List Int) : (dayDiffs l).length = l.length - 1 := by
  induction l with
  | nil => rfl
  | cons a t ih =>
    cases t with
    | nil => rfl
    | cons b t2 =>
      show (dayDiffs (b :: t2)).length + 1 = t2.length + 1
      rw [ih]
      rfl

theorem dayDiffs_mem_ge_one (l : List Int) : ∀ d ∈ dayDiffs l, 1 ≤ d := by
  induction l with
  | nil => intro d hd; cases hd
  | cons a t ih =>
    cases t with
    | nil => intro d hd; cases hd
    | cons b t2 =>
      intro d hd
      rcases List.mem_cons.mp hd with h | h
      · exact h ▸ le_max_left 1 (b - a)
      · exact ih d h

theorem length_le_sum_int (l : List Int) (h : ∀ x ∈ l, 1 ≤ x) :
    (l.length : Int) ≤ l.sum := by
  induction l with
  | nil => simp
  | cons a t ih =>
    have ha : 1 ≤ a := h a (List.mem_cons_self a t)
    have ht : (t.length : Int) ≤ t.sum :=
      ih (fun x hx => h x (List.mem_cons_of_mem a hx))
    simp only [List.length_cons, List.sum_cons]
    push_cast
    linarith

theorem jsRound_ge_one {q : Rat} (h : 1 ≤ q) : 1 ≤ jsRound q := by
  unfold jsRound
  rw [Int.le_floor]
  push_cast
  linarith

theorem loans_all_ne_false {ls : List LoanRow} {l : LoanRow} (hl : l ∈ ls) :
    (ls.all fun x => x.id ≠ l.id) = false := by
  simp only [List.all_eq_false]
  exact ⟨l, hl, by simp⟩

theorem normalizePaidBy_steven : normalizePaidBy (some "Steven") = "Steven" := by decide

theorem normalizePaidBy_some (s : String) :
    normalizePaidBy (some s) =
      if s = "" then "Steven"
      else if strLower (jsTrim s) = "i" ∨ strLower (jsTrim s) = "me" ∨
          strLower (jsTrim s) = "myself" ∨ strLower (jsTrim s) = "steven" then "Steven"
      else if strLower (jsTrim s) = "katerina" then "Katerina"
      else "Steven" := rfl

/-- Reduction of `serve` on an `add_payment` body with an explicit valid
`loan_id`, a positive amount, an explicit `payment_date` and no `paid_by`. -/
theorem serve_payBodyDate (nowMs : Int) (rpc : Bool) (db : DB) (l : LoanRow)
    (hl : l ∈ db.loans) (hid : l.id ≠ "") (a : Rat) (ha : 0 < a) (dt : String) :
    serve nowMs rpc db (payBodyDate l.id a dt) =
      (.ok 200 (.payment l.id a "Steven" (if isISODate dt then dt else isoDateStringOfMs nowMs)),
       { db with
         payments := db.payments ++
           [⟨l.id, a, "Steven", if isISODate dt then dt else isoDateStringOfMs nowMs⟩],
         loans := db.loans.map (fun x =>
           if x.id = l.id then
             { x with current_balance :=
                 if rpc then decrement_loan_balance x.current_balance a
                 else fallbackBalance x.current_balance a }
           else x) }) := by
  simp only [serve, payBodyDate, jGet, lookupField, serveAddPayment, resolvedId,
    edgePaidBy, normalizePaidBy_steven]
  simp [hid]
  rw [if_neg (not_le.mpr ha), if_neg (fun h => h l hl rfl)]

/-- Reduction of `serve` on an `add_payment` body with an explicit valid
`loan_id`, a positive amount, and neither `paid_by` nor `payment_date`. -/
theorem serve_payBodyId (nowMs : Int) (rpc : Bool) (db : DB) (l : LoanRow)
    (hl : l ∈ db.loans) (hid : l.id ≠ "") (a : Rat) (ha : 0 < a) :
    serve nowMs rpc db (payBodyId l.id a) =
      (.ok 200 (.payment l.id a "Steven" (isoDateStringOfMs nowMs)),
       { db with
         payments := db.payments ++ [⟨l.id, a, "Steven", isoDateStringOfMs nowMs⟩],
         loans := db.loans.map (fun x =>
           if x.id = l.id then
             { x with current_balance :=
                 if rpc then decrement_loan_balance x.current_balance a
                 else fallbackBalance x.current_balance a }
           else x) }) := by
  simp only [serve, payBodyId, jGet, lookupField, serveAddPayment, resolvedId,
    edgePaidBy, normalizePaidBy_steven]
  simp [hid]
  rw [if_neg (not_le.mpr ha), if_neg (fun h => h l hl rfl)]

/-- Reduction of `serve` on an `add_payment` body with an explicit valid
`loan_id`, a positive amount, an explicit string `paid_by`, and no
`payment_date`. -/
theorem serve_payBodyPaidBy (nowMs : Int) (rpc : Bool) (db : DB) (l : LoanRow)
    (hl : l ∈ db.loans) (hid : l.id ≠ "") (a : Rat) (ha : 0 < a) (pb : String) :
    serve nowMs rpc db (payBodyPaidBy l.id a pb) =
      (.ok 200 (.payment l.id a (normalizePaidBy (some pb)) (isoDateStringOfMs nowMs)),
       { db with
         payments := db.payments ++
           [⟨l.id, a, normalizePaidBy (some pb), isoDateStringOfMs nowMs⟩],
         loans := db.loans.map (fun x =>
           if x.id = l.id then
             { x with current_balance :=
                 if rpc then decrement_loan_balance x.current_balance a
                 else fallbackBalance x.current_balance a }
           else x) }) := by
  simp only [serve, payBodyPaidBy, jGet, lookupField, serveAddPayment, resolvedId,
    edgePaidBy]
  simp [hid]
  rw [if_neg (not_le.mpr ha), if_neg (fun h => h l hl rfl)]

/-- C10: the Edge Function never rejects an `add_payment` because of a
malformed `payment_date`: for every supplied `payment_date` string that
fails the `YYYY-MM-DD` check (for example `"08/23/2025"`), the payment is
still recorded, with the date silently replaced by the current (server
clock) date; a well-formed date is recorded verbatim. -/
theorem C10_malformed_date_fallback (nowMs : Int) (rpc : Bool) (db : DB)
    (l : LoanRow) (hl : l ∈ db.loans) (hid : l.id ≠ "") (a : Rat) (ha : 0 < a)
    (dt : String) :
    (serve nowMs rpc db (payBodyDate l.id a dt)).1 =
      .ok 200 (.payment l.id a "Steven"
        (if isISODate dt then dt else isoDateStringOfMs nowMs)) ∧
    (serve nowMs rpc db (payBodyDate l.id a dt)).2.payments =
      db.payments ++
        [⟨l.id, a, "Steven", if isISODate dt then dt else isoDateStringOfMs nowMs⟩] ∧
    isISODate "08/23/2025" = false := by
  rw [serve_payBodyDate nowMs rpc db l hl hid a ha dt]
  exact ⟨rfl, rfl, by decide⟩

/-- Witness for C10 at a concrete store, amount and malformed date. -/
theorem C10_malformed_date_fallback_witness :
    loanW ∈ dbW.loans ∧ loanW.id ≠ "" ∧ (0 : Rat) < 20 ∧
    (serve 0 true dbW (payBodyDate loanW.id 20 "08/23/2025")).1 =
      .ok 200 (.payment loanW.id 20 "Steven"
        (if isISODate "08/23/2025" then "08/23/2025" else isoDateStringOfMs 0)) :=
  ⟨by decide, by decide, by decide,
   (C10_malformed_date_fallback 0 true dbW loanW (by decide) (by decide) 20
     (by decide) "08/23/2025").1⟩

/-- C5 (amended): for every executed `add_payment` with no `paid_by`
supplied, the recorded `paid_by` is the fixed default party `"Steven"`;
for every executed `add_payment` with no `payment_date` supplied, the
recorded `payment_date` is the current UTC calendar date of the server
clock (`new Date().toISOString().slice(0, 10)`) — not the America/Chicago
date, which can differ near midnight. -/
theorem C5_add_payment_defaults (nowMs : Int) (rpc : Bool) (db : DB)
    (l : LoanRow) (hl : l ∈ db.loans) (hid : l.id ≠ "") (a : Rat) (ha : 0 < a) :
    (serve nowMs rpc db (payBodyId l.id a)).1 =
      .ok 200 (.payment l.id a "Steven" (isoDateStringOfMs nowMs)) ∧
    (serve nowMs rpc db (payBodyId l.id a)).2.payments =
      db.payments ++ [⟨l.id, a, "Steven", isoDateStringOfMs nowMs⟩] := by
  rw [serve_payBodyId nowMs rpc db l hl hid a ha]
  exact ⟨rfl, rfl⟩

/-- Witness for C5’s amended statement at a concrete store and amount. -/
theorem C5_add_payment_defaults_witness :
    loanW ∈ dbW.loans ∧ loanW.id ≠ "" ∧ (0 : Rat) < 25 ∧
    (serve msJan true dbW (payBodyId loanW.id 25)).1 =
      .ok 200 (.payment loanW.id 25 "Steven" (isoDateStringOfMs msJan)) :=
  ⟨by decide, by decide, by decide,
   (C5_add_payment_defaults msJan true dbW loanW (by decide) (by decide) 25
     (by decide)).1⟩

/-- Counterexample to C5 as stated: at 2025-01-02T03:00:00Z the executor
records the UTC date `"2025-01-02"`, while "today" in the reference
timezone America/Chicago is `"2025-01-01"`. -/
theorem C5_counterexample :
    (serve msJan true dbW (payBodyId "L1" 25)).1 =
      .ok 200 (.payment "L1" 25 "Steven" "2025-01-02") ∧
    chicagoDateStringOfMs msJan = "2025-01-01" ∧
    ("2025-01-02" : String) ≠ chicagoDateStringOfMs msJan := by
  refine ⟨by decide, by decide, by decide⟩

/-- C9: the stored `paid_by` is always exactly `"Steven"` or `"Katerina"`;
`"Katerina"` results exactly when the trimmed, lowercased input is
`"katerina"`; the listed aliases and every unrecognised name normalise to
`"Steven"`; and the executor accepts any string `paid_by` (it never rejects
a payment over it). -/
theorem C9_paid_by_closed_set :
    (∀ v : Option String,
       (normalizePaidBy v = "Steven" ∨ normalizePaidBy v = "Katerina") ∧
       (normalizePaidBy v = "Katerina" ↔
         ∃ s, v = some s ∧ strLower (jsTrim s) = "katerina")) ∧
    normalizePaidBy (some "i") = "Steven" ∧
    normalizePaidBy (some "ME") = "Steven" ∧
    normalizePaidBy (some "myself") = "Steven" ∧
    normalizePaidBy (some "steven") = "Steven" ∧
    normalizePaidBy (some "Bob") = "Steven" ∧
    normalizePaidBy (some "KATERINA") = "Katerina" ∧
    normalizePaidBy none = "Steven" ∧
    (∀ (nowMs : Int) (rpc : Bool) (db : DB) (l : LoanRow), l ∈ db.loans →
       l.id ≠ "" → ∀ (a : Rat), 0 < a → ∀ pb : String,
       (serve nowMs rpc db (payBodyPaidBy l.id a pb)).1.isOk = true ∧
       (serve nowMs rpc db (payBodyPaidBy l.id a pb)).2.payments =
         db.payments ++
           [⟨l.id, a, normalizePaidBy (some pb), isoDateStringOfMs nowMs⟩]) := by
  refine ⟨fun v => ⟨?_, ?_⟩, by decide, by decide, by decide, by decide, by decide,
    by decide, by decide, fun nowMs rpc db l hl hid a ha pb => ?_⟩
  · match v with
    | none => exact Or.inl rfl
    | some s =>
      rw [normalizePaidBy_some]
      by_cases h0 : s = ""
      · simp [h0]
      · rw [if_neg h0]
        by_cases h1 : strLower (jsTrim s) = "i" ∨ strLower (jsTrim s) = "me" ∨
            strLower (jsTrim s) = "myself" ∨ strLower (jsTrim s) = "steven"
        · simp [h1]
        · rw [if_neg h1]
          by_cases h2 : strLower (jsTrim s) = "katerina"
          · simp [h2]
          · simp [h2]
  · constructor
    · intro hk
      match v with
      | none => exact absurd hk (by decide)
      | some s =>
        refine ⟨s, rfl, ?_⟩
        by_contra hne
        rw [normalizePaidBy_some] at hk
        by_cases h0 : s = ""
        · rw [if_pos h0] at hk; exact absurd hk (by decide)
        · rw [if_neg h0] at hk
          by_cases h1 : strLower (jsTrim s) = "i" ∨ strLower (jsTrim s) = "me" ∨
              strLower (jsTrim s) = "myself" ∨ strLower (jsTrim s) = "steven"
          · rw [if_pos h1] at hk; exact absurd hk (by decide)
          · rw [if_neg h1, if_neg hne] at hk; exact absurd hk (by decide)
    · rintro ⟨s, rfl, hlow⟩
      rw [normalizePaidBy_some]
      have h0 : s ≠ "" := by
        intro h; rw [h] at hlow; exact absurd hlow (by decide)
      have h1 : ¬ (strLower (jsTrim s) = "i" ∨ strLower (jsTrim s) = "me" ∨
          strLower (jsTrim s) = "myself" ∨ strLower (jsTrim s) = "steven") := by
        rw [hlow]; decide
      rw [if_neg h0, if_neg h1, if_pos hlow]
  · rw [serve_payBodyPaidBy nowMs rpc db l hl hid a ha pb]
    exact ⟨rfl, rfl⟩

/-- Witness for C9’s executor conjunct at a concrete store and a name
outside the closed set. -/
theorem C9_paid_by_closed_set_witness :
    loanW ∈ dbW.loans ∧ loanW.id ≠ "" ∧ (0 : Rat) < 30 ∧
    (serve 0 true dbW (payBodyPaidBy loanW.id 30 "Bob")).1.isOk = true :=
  ⟨by decide, by decide, by decide,
   (C9_paid_by_closed_set.2.2.2.2.2.2.2.2 0 true dbW loanW (by decide)
     (by decide) 30 (by decide) "Bob").1⟩

theorem likeChars_wildfree :
    ∀ (p : List Char), '%' ∉ p → '_' ∉ p → ∀ s,
    (likeChars p s = true ↔ p.map Char.toLower = s.map Char.toLower) := by
  intro p
  induction p with
  | nil =>
    intro _ _ s
    show s.isEmpty = true ↔ [] = s.map Char.toLower
    cases s <;> simp
  | cons c p ih =>
    intro hp1 hp2 s
    have hc1 : ¬ c = '%' := fun h => hp1 (h ▸ List.mem_cons_self c p)
    have hc2 : ¬ c = '_' := fun h => hp2 (h ▸ List.mem_cons_self c p)
    have hp1t : '%' ∉ p := fun h => hp1 (List.mem_cons_of_mem c h)
    have hp2t : '_' ∉ p := fun h => hp2 (List.mem_cons_of_mem c h)
    cases s with
    | nil => simp [likeChars, hc1]
    | cons d s2 =>
      simp only [likeChars, hc1, hc2, if_false, List.map_cons, List.cons.injEq,
        Bool.and_eq_true, decide_eq_true_eq]
      rw [ih hp1t hp2t s2]

theorem ilike_wildfree (pat s : String) (h1 : '%' ∉ pat.data)
    (h2 : '_' ∉ pat.data) :
    (ilikeStr pat s = true ↔ strLower pat = strLower s) := by
  unfold ilikeStr strLower
  rw [likeChars_wildfree pat.data h1 h2 s.data]
  constructor
  · intro h; rw [h]
  · intro h; injection h

/-- A wildcard-free name resolves in the Edge Function exactly when some
loan’s name equals the trimmed query case-insensitively: there is no prefix
or substring tier in `resolveLoanIdByName`. -/
theorem resolve_isSome_iff (db : DB) (nm : String)
    (h1 : '%' ∉ (jsTrim nm).data) (h2 : '_' ∉ (jsTrim nm).data) :
    ((resolveLoanIdByName db nm).isSome = true ↔
      ∃ l ∈ db.loans, strLower (jsTrim nm) = strLower l.name) := by
  rcases h : db.loans.filter (fun l => ilikeStr (jsTrim nm) l.name) with _ | ⟨r, rs⟩
  · rw [resolveLoanIdByName]
    rw [h]
    simp only [Option.isSome_none, Bool.false_eq_true, false_iff]
    rintro ⟨l, hl, heq⟩
    have := List.filter_eq_nil_iff.mp h l hl
    exact this ((ilike_wildfree (jsTrim nm) l.name h1 h2).mpr heq)
  · rw [resolveLoanIdByName]
    rw [h]
    simp only [Option.isSome_some, true_iff]
    have hr : r ∈ db.loans.filter (fun l => ilikeStr (jsTrim nm) l.name) := by
      rw [h]; exact List.mem_cons_self r rs
    obtain ⟨hmem, hpred⟩ := List.mem_filter.mp hr
    exact ⟨r, hmem, (ilike_wildfree (jsTrim nm) r.name h1 h2).mp hpred⟩

/-- `serve` on an `add_payment` body whose `loan_name` fails to resolve:
a 400 error naming neither tier nor count, and no store change. -/
theorem serve_payBodyName_nomatch (nowMs : Int) (rpc : Bool) (db : DB)
    (nm : String) (hnm : nm ≠ "") (a : Rat) (ha : 0 < a)
    (hres : resolveLoanIdByName db nm = none) :
    serve nowMs rpc db (payBodyName nm a) =
      (.err 400 "add_payment requires loan_id or valid loan_name.", db) := by
  simp only [serve, payBodyName, jGet, lookupField, serveAddPayment, resolvedId,
    resolvedByName]
  simp [hnm, hres]
  exact ha

/-- C4 (amended): the three-tier fuzzy match — exact case-insensitive, then
case-insensitive prefix, then case-insensitive substring, first match of the
first non-empty tier — applies only to `get_loans` narrowed by `loan_name`
in the chat UI, where a full miss produces the not-found message naming the
current loan count.  `add_payment` and `delete_loan` resolve names in the
Edge Function by case-insensitive *exact* equality of the trimmed query only
(preferring an exact-case-insensitive match among the selected rows, else
the first), and their no-match outcome is the error
"add_payment requires loan_id or valid loan_name." with no store change. -/
theorem C4_name_resolution (names : List String) (ln : String) :
    (∀ m, names.find? (fun n => strLower n = strLower (jsTrim ln)) = some m →
       uiFindTarget names ln = some m) ∧
    (names.find? (fun n => strLower n = strLower (jsTrim ln)) = none →
     ∀ m, names.find?
         (fun n => startsWithChars (strLower (jsTrim ln)).data (strLower n).data) = some m →
       uiFindTarget names ln = some m) ∧
    (names.find? (fun n => strLower n = strLower (jsTrim ln)) = none →
     names.find?
         (fun n => startsWithChars (strLower (jsTrim ln)).data (strLower n).data) = none →
       uiFindTarget names ln =
         names.find? (fun n => includesChars (strLower (jsTrim ln)).data (strLower n).data)) ∧
    (uiFindTarget names ln = none →
       uiNarrow names ln = .notFound (uiNotFoundMsg ln names.length)) ∧
    (∀ (db : DB) (nm : String), '%' ∉ (jsTrim nm).data → '_' ∉ (jsTrim nm).data →
       (((resolveLoanIdByName db nm).isSome = true ↔
          ∃ l ∈ db.loans, strLower (jsTrim nm) = strLower l.name) ∧
        (nm ≠ "" → resolveLoanIdByName db nm = none →
          ∀ (nowMs : Int) (rpc : Bool) (a : Rat), 0 < a →
          serve nowMs rpc db (payBodyName nm a) =
            (.err 400 "add_payment requires loan_id or valid loan_name.", db)))) := by
  refine ⟨?_, ?_, ?_, ?_, ?_⟩
  · intro m hm
    unfold uiFindTarget
    rw [hm]
  · intro hex m hm
    unfold uiFindTarget
    rw [hex, hm]
  · intro hex hpre
    unfold uiFindTarget
    rw [hex, hpre]
  · intro hnone
    unfold uiNarrow
    rw [hnone]
  · intro db nm h1 h2
    exact ⟨resolve_isSome_iff db nm h1 h2,
      fun hnm hres nowMs rpc a ha =>
        serve_payBodyName_nomatch nowMs rpc db nm hnm a ha hres⟩

/-- Witness for C4’s amended statement: with loans "Remodeling Dining" and
"Dining Chairs" and query "dining", the exact tier is empty and the prefix
tier selects "Dining Chairs" (even though a substring match appears earlier
in the list); the Edge Function resolver, by contrast, has no loan equal to
"dining" and so resolves nothing. -/
theorem C4_name_resolution_witness :
    (List.find? (fun n => strLower n = strLower (jsTrim "dining"))
        ["Remodeling Dining", "Dining Chairs"] = none ∧
     List.find?
        (fun n => startsWithChars (strLower (jsTrim "dining")).data (strLower n).data)
        ["Remodeling Dining", "Dining Chairs"] = some "Dining Chairs" ∧
     uiFindTarget ["Remodeling Dining", "Dining Chairs"] "dining" = some "Dining Chairs") ∧
    ('%' ∉ (jsTrim "tesla").data ∧ '_' ∉ (jsTrim "tesla").data ∧
     ((resolveLoanIdByName dbTesla "tesla").isSome = true ↔
        ∃ l ∈ dbTesla.loans, strLower (jsTrim "tesla") = strLower l.name)) :=
  ⟨⟨by decide, by decide,
    (C4_name_resolution ["Remodeling Dining", "Dining Chairs"] "dining").2.1
      (by decide) "Dining Chairs" (by decide)⟩,
   by decide, by decide,
   ((C4_name_resolution [] "").2.2.2.2 dbTesla "tesla" (by decide) (by decide)).1⟩

/-- The post-extraction validator either succeeds with status 200 or fails
with a `bad`-shaped body. -/
theorem handlerValidate_shape (parsed : Json) :
    (handlerValidate parsed).1 = 200 ∨
    ∃ m, (handlerValidate parsed).2 = badBody m := by
  unfold handlerValidate
  rcases h1 : jGet parsed "message" with _ | (_ | b1 | q1 | ms | it1 | fl1) <;>
    try exact Or.inr ⟨_, rfl⟩
  rcases h2 : jGet parsed "need_followup" with _ | (_ | nb | q2 | s2 | it2 | fl2) <;>
    try exact Or.inr ⟨_, rfl⟩
  dsimp only
  by_cases c1 : (!truthyO (jGet parsed "action") ||
      nb && fqBadType (jGet parsed "followup_question")) = true
  · rw [if_pos c1]; exact Or.inr ⟨_, rfl⟩
  · rw [if_neg c1]
    by_cases c2 : (!nb && actionIs (jGet parsed "action") "create_loan" &&
        (!isStrO (jGet (paramsOrEmpty (jGet parsed "parameters")) "loan_name") ||
         !isNumO (jGet (paramsOrEmpty (jGet parsed "parameters")) "amount"))) = true
    · rw [if_pos c2]; exact Or.inr ⟨_, rfl⟩
    · rw [if_neg c2]
      by_cases c3 : (!nb && actionIs (jGet parsed "action") "add_payment" &&
          (!isStrO (jGet (paramsOrEmpty (jGet parsed "parameters")) "loan_name") ||
           !isNumO (jGet (paramsOrEmpty (jGet parsed "parameters")) "amount"))) = true
      · rw [if_pos c3]; exact Or.inr ⟨_, rfl⟩
      · rw [if_neg c3]
        by_cases c4 : (!nb && actionIs (jGet parsed "action") "delete_loan" &&
            (!isStrO (jGet (paramsOrEmpty (jGet parsed "parameters")) "loan_name") &&
             !isStrO (jGet (paramsOrEmpty (jGet parsed "parameters")) "loan_id"))) = true
        · rw [if_pos c4]; exact Or.inr ⟨_, rfl⟩
        · rw [if_neg c4]
          by_cases c5 : (actionIs (jGet parsed "action") "create_loan" && !nb &&
              (!truthyO (jGet ((jGet parsed "parameters").getD Json.null) "loan_name") ||
               !truthyO (jGet ((jGet parsed "parameters").getD Json.null) "amount") ||
               !truthyO (jGet ((jGet parsed "parameters").getD Json.null) "loan_date") ||
               !truthyO (jGet ((jGet parsed "parameters").getD Json.null) "term_months"))) = true
          · rw [if_pos c5]; exact Or.inr ⟨_, rfl⟩
          · rw [if_neg c5]; exact Or.inl rfl

/-- Every parse-endpoint response either has status 200 or its body was
built by `bad` (the uniform failure shape). -/
theorem handler_failure_shape (apiKeySet : Bool) (method : String)
    (reqBody : Json) (up : Upstream) (parseJson : String → Option Json) :
    (handler apiKeySet method reqBody up parseJson).1 = 200 ∨
    ∃ m, (handler apiKeySet method reqBody up parseJson).2 = badBody m := by
  unfold handler
  by_cases hm : method ≠ "POST"
  · rw [if_pos hm]; exact Or.inr ⟨_, rfl⟩
  · rw [if_neg hm]
    by_cases hk : (!apiKeySet) = true
    · rw [if_pos hk]; exact Or.inr ⟨_, rfl⟩
    · rw [if_neg hk]
      rcases hc : jGet reqBody "command" with _ | (_ | b1 | q1 | c | it1 | fl1) <;>
        try exact Or.inr ⟨_, rfl⟩
      dsimp only
      by_cases hce : c = ""
      · rw [if_pos hce]; exact Or.inr ⟨_, rfl⟩
      · rw [if_neg hce]
        unfold handlerUpstream
        rcases up with m | ⟨st, txt⟩ | payload
        · exact Or.inr ⟨_, rfl⟩
        · exact Or.inr ⟨_, rfl⟩
        · dsimp only
          rcases he : extractJSON parseJson payload with _ | parsed
          · exact Or.inr ⟨_, rfl⟩
          · dsimp only
            by_cases ho : (!objLike parsed) = true
            · rw [if_pos ho]; exact Or.inr ⟨_, rfl⟩
            · rw [if_neg ho]; exact handlerValidate_shape parsed

/-- On the validator’s success path the echoed `action` is exactly the
model-supplied (truthy) `action` value. -/
theorem handlerValidate_action (parsed : Json) :
    (∃ m, (handlerValidate parsed).2 = badBody m) ∨
    jGet parsed "action" = some ((handlerValidate parsed).2.action) := by
  unfold handlerValidate
  rcases h1 : jGet parsed "message" with _ | (_ | b1 | q1 | ms | it1 | fl1) <;>
    try exact Or.inl ⟨_, rfl⟩
  rcases h2 : jGet parsed "need_followup" with _ | (_ | nb | q2 | s2 | it2 | fl2) <;>
    try exact Or.inl ⟨_, rfl⟩
  dsimp only
  by_cases c1 : (!truthyO (jGet parsed "action") ||
      nb && fqBadType (jGet parsed "followup_question")) = true
  · rw [if_pos c1]; exact Or.inl ⟨_, rfl⟩
  · rw [if_neg c1]
    have hat : truthyO (jGet parsed "action") = true := by
      rcases h : truthyO (jGet parsed "action") with _ | _
      · exact absurd (by rw [h]; rfl) c1
      · rfl
    by_cases c2 : (!nb && actionIs (jGet parsed "action") "create_loan" &&
        (!isStrO (jGet (paramsOrEmpty (jGet parsed "parameters")) "loan_name") ||
         !isNumO (jGet (paramsOrEmpty (jGet parsed "parameters")) "amount"))) = true
    · rw [if_pos c2]; exact Or.inl ⟨_, rfl⟩
    · rw [if_neg c2]
      by_cases c3 : (!nb && actionIs (jGet parsed "action") "add_payment" &&
          (!isStrO (jGet (paramsOrEmpty (jGet parsed "parameters")) "loan_name") ||
           !isNumO (jGet (paramsOrEmpty (jGet parsed "parameters")) "amount"))) = true
      · rw [if_pos c3]; exact Or.inl ⟨_, rfl⟩
      · rw [if_neg c3]
        by_cases c4 : (!nb && actionIs (jGet parsed "action") "delete_loan" &&
            (!isStrO (jGet (paramsOrEmpty (jGet parsed "parameters")) "loan_name") &&
             !isStrO (jGet (paramsOrEmpty (jGet parsed "parameters")) "loan_id"))) = true
        · rw [if_pos c4]; exact Or.inl ⟨_, rfl⟩
        · rw [if_neg c4]
          by_cases c5 : (actionIs (jGet parsed "action") "create_loan" && !nb &&
              (!truthyO (jGet ((jGet parsed "parameters").getD Json.null) "loan_name") ||
               !truthyO (jGet ((jGet parsed "parameters").getD Json.null) "amount") ||
               !truthyO (jGet ((jGet parsed "parameters").getD Json.null) "loan_date") ||
               !truthyO (jGet ((jGet parsed "parameters").getD Json.null) "term_months"))) = true
          · rw [if_pos c5]; exact Or.inl ⟨_, rfl⟩
          · rw [if_neg c5]
            rcases ha : jGet parsed "action" with _ | av
            · rw [ha] at hat; exact absurd hat (by decide)
            · exact Or.inr rfl

/-- Every handler response’s `action` is `"unknown"` (all failure bodies),
or is exactly the value the extracted model output supplied. -/
theorem handler_action_source (apiKeySet : Bool) (method : String)
    (reqBody : Json) (up : Upstream) (parseJson : String → Option Json) :
    (handler apiKeySet method reqBody up parseJson).2.action = Json.str "unknown" ∨
    ∃ payload parsed, up = .ok payload ∧
      extractJSON parseJson payload = some parsed ∧
      jGet parsed "action" =
        some ((handler apiKeySet method reqBody up parseJson).2.action) := by
  unfold handler
  by_cases hm : method ≠ "POST"
  · rw [if_pos hm]; exact Or.inl rfl
  · rw [if_neg hm]
    by_cases hk : (!apiKeySet) = true
    · rw [if_pos hk]; exact Or.inl rfl
    · rw [if_neg hk]
      rcases hc : jGet reqBody "command" with _ | (_ | b1 | q1 | c | it1 | fl1) <;>
        try exact Or.inl rfl
      dsimp only
      by_cases hce : c = ""
      · rw [if_pos hce]; exact Or.inl rfl
      · rw [if_neg hce]
        unfold handlerUpstream
        rcases up with m | ⟨st, txt⟩ | payload
        · exact Or.inl rfl
        · exact Or.inl rfl
        · dsimp only
          rcases he : extractJSON parseJson payload with _ | parsed
          · exact Or.inl rfl
          · dsimp only
            by_cases ho : (!objLike parsed) = true
            · rw [if_pos ho]; exact Or.inl rfl
            · rw [if_neg ho]
              rcases handlerValidate_action parsed with ⟨m, hm2⟩ | hsrc
              · exact Or.inl (by rw [hm2]; rfl)
              · exact Or.inr ⟨payload, parsed, rfl, he, hsrc⟩

/-- C7 (amended): every failure response carries `action = "unknown"`, and
a success (200) response echoes the model-supplied `action` verbatim; the
endpoint validates only the *presence* (truthiness) of `action`, not
membership in the enumerated set, so the five-value guarantee holds exactly
when the extracted model output’s `action` is one of the five. -/
theorem C7_action_values (apiKeySet : Bool) (method : String) (reqBody : Json)
    (up : Upstream) (parseJson : String → Option Json) :
    ((handler apiKeySet method reqBody up parseJson).2.action = Json.str "unknown" ∨
     ∃ payload parsed, up = .ok payload ∧
       extractJSON parseJson payload = some parsed ∧
       jGet parsed "action" =
         some ((handler apiKeySet method reqBody up parseJson).2.action)) ∧
    ((∀ payload parsed a, up = .ok payload →
        extractJSON parseJson payload = some parsed →
        jGet parsed "action" = some a → isKnownAction a = true) →
      isKnownAction ((handler apiKeySet method reqBody up parseJson).2.action) = true) := by
  refine ⟨handler_action_source apiKeySet method reqBody up parseJson, fun H => ?_⟩
  rcases handler_action_source apiKeySet method reqBody up parseJson with h | ⟨payload, parsed, hup, hext, hact⟩
  · rw [h]; rfl
  · exact H payload parsed _ hup hext hact

/-- Witness for C7’s amended statement at a compliant model output. -/
theorem C7_action_values_witness :
    (handler true "POST" cmdBody (.ok mkPayload) (mkParse parsedGet)).2.action =
      Json.str "get_loans" ∧
    isKnownAction ((handler true "POST" cmdBody (.ok mkPayload)
      (mkParse parsedGet)).2.action) = true :=
  ⟨rfl,
   (C7_action_values true "POST" cmdBody (.ok mkPayload) (mkParse parsedGet)).2
     (by
       intro payload parsed a hup hext hact
       injection hup with hup2
       subst hup2
       rw [show extractJSON (mkParse parsedGet) mkPayload = some parsedGet from rfl]
         at hext
       injection hext with hext2
       subst hext2
       rw [show jGet parsedGet "action" = some (Json.str "get_loans") from rfl] at hact
       injection hact with hact2
       subst hact2
       rfl)⟩

/-- Counterexample to C7 as stated: a model output with the non-enumerated
action `"foo"` passes the endpoint’s truthiness-only check and is echoed in
a 200 response — the response body’s `action` is not one of the five
enumerated values. -/
theorem C7_counterexample :
    (handler true "POST" cmdBody (.ok mkPayload) (mkParse parsedFoo)).1 = 200 ∧
    (handler true "POST" cmdBody (.ok mkPayload) (mkParse parsedFoo)).2.action =
      Json.str "foo" ∧
    isKnownAction (Json.str "foo") = false :=
  ⟨rfl, rfl, rfl⟩

/-- C8: for every loan with at least one payment (positive amounts) and a
positive remaining balance, the display projection computes the mean
payment amount (total over count); with at least two payments it also
computes the mean day gap — the rounded mean of the consecutive day
differences of the date-sorted payments — and the projected payoff date is
the last sorted payment’s day advanced by `ceil(remaining / mean_payment)`
intervals of that gap; with fewer than two payments, or a non-positive
remaining balance, no projected date is produced (the value is `none`, not
a sentinel). -/
theorem C8_projection (ps : List PaymentP) (remaining : Rat)
    (hne : ps ≠ []) (hrem : 0 < remaining) (hpos : ∀ p ∈ ps, 0 < p.amount) :
    (computeProjection ps remaining).1 =
      some ((ps.map fun p => p.amount).sum / (ps.length : Rat)) ∧
    (ps.length < 2 → (computeProjection ps remaining).2.2 = none) ∧
    (∀ (qs : List PaymentP) (r : Rat), r ≤ 0 →
      computeProjection qs r = (none, none, none)) ∧
    (2 ≤ ps.length →
      ∃ g lastP,
        (computeProjection ps remaining).2.1 = some g ∧
        g = jsRound
          (((dayDiffs ((sortPayments ps).map fun p => p.payday)).sum : Rat) /
           ((dayDiffs ((sortPayments ps).map fun p => p.payday)).length : Rat)) ∧
        1 ≤ g ∧
        (sortPayments ps).getLast? = some lastP ∧
        (computeProjection ps remaining).2.2 =
          some (lastP.payday +
            ⌈remaining / ((ps.map fun p => p.amount).sum / (ps.length : Rat))⌉ * g)) := by
  have hperm : (sortPayments ps).Perm ps := List.perm_insertionSort _ ps
  have hlen : (sortPayments ps).length = ps.length := hperm.length_eq
  have hsum : ((sortPayments ps).map fun p => p.amount).sum =
      (ps.map fun p => p.amount).sum := (hperm.map _).sum_eq
  have hcond : ¬(ps = [] ∨ remaining ≤ 0) := by
    rintro (h | h)
    · exact hne h
    · exact absurd hrem (not_lt.mpr h)
  have hsp : 0 < (ps.map fun p => p.amount).sum := by
    apply List.sum_pos
    · intro a ha
      obtain ⟨p, hp, rfl⟩ := List.mem_map.mp ha
      exact hpos p hp
    · simp [hne]
  have havg : 0 < (ps.map fun p => p.amount).sum / (ps.length : Rat) := by
    apply div_pos hsp
    have : 0 < ps.length := List.length_pos.mpr hne
    exact_mod_cast this
  refine ⟨?_, ?_, ?_, ?_⟩
  · unfold computeProjection
    rw [if_neg hcond]
    dsimp only
    rw [hsum, List.length_map, hlen]
  · intro h2
    unfold computeProjection
    rw [if_neg hcond]
    dsimp only
    rw [hlen, if_neg (not_le.mpr h2)]
    rcases hL : (sortPayments ps).getLast? with _ | lastP <;> rfl
  · intro qs r hr
    unfold computeProjection
    rw [if_pos (Or.inr hr)]
  · intro h2
    have hdlen : (dayDiffs ((sortPayments ps).map fun p => p.payday)).length =
        ps.length - 1 := by
      rw [dayDiffs_length, List.length_map, hlen]
    have hdlenpos : 0 < (dayDiffs ((sortPayments ps).map fun p => p.payday)).length := by
      rw [hdlen]; omega
    have hmean : (1 : Rat) ≤
        ((dayDiffs ((sortPayments ps).map fun p => p.payday)).sum : Rat) /
        ((dayDiffs ((sortPayments ps).map fun p => p.payday)).length : Rat) := by
      rw [le_div_iff₀ (by exact_mod_cast hdlenpos)]
      rw [one_mul]
      exact_mod_cast length_le_sum_int _ (dayDiffs_mem_ge_one _)
    have hg : 1 ≤ jsRound
        (((dayDiffs ((sortPayments ps).map fun p => p.payday)).sum : Rat) /
         ((dayDiffs ((sortPayments ps).map fun p => p.payday)).length : Rat)) :=
      jsRound_ge_one hmean
    have hsne : sortPayments ps ≠ [] := by
      intro h
      rw [h] at hlen
      exact hne (List.length_eq_zero.mp hlen.symm)
    rcases hL : (sortPayments ps).getLast? with _ | lastP
    · exact absurd (List.getLast?_eq_none_iff.mp hL) hsne
    · refine ⟨_, lastP, ?_, rfl, hg, rfl, ?_⟩
      · unfold computeProjection
        rw [if_neg hcond]
        dsimp only
        rw [hlen, if_pos h2]
      · unfold computeProjection
        rw [if_neg hcond]
        dsimp only
        rw [hlen, if_pos h2, hL]
        dsimp only
        rw [hsum, List.length_map, hlen]
        have hgne : jsRound
            (((dayDiffs ((sortPayments ps).map fun p => p.payday)).sum : Rat) /
             ((dayDiffs ((sortPayments ps).map fun p => p.payday)).length : Rat)) ≠ 0 := by
          omega
        simp [if_neg havg.ne', decide_eq_true havg, if_neg hgne]
        refine ⟨hsp.ne', hne, ?_⟩
        push_cast at hgne
        exact hgne

/-- Witness for C8 at two concrete payments and a positive balance. -/
theorem C8_projection_witness :
    ([⟨100, 20100⟩, ⟨50, 20130⟩] : List PaymentP) ≠ [] ∧ (0 : Rat) < 300 ∧
    (∀ p ∈ ([⟨100, 20100⟩, ⟨50, 20130⟩] : List PaymentP), 0 < p.amount) ∧
    (computeProjection [⟨100, 20100⟩, ⟨50, 20130⟩] 300).1 =
      some ((([⟨100, 20100⟩, ⟨50, 20130⟩] : List PaymentP).map fun p => p.amount).sum /
        (([⟨100, 20100⟩, ⟨50, 20130⟩] : List PaymentP).length : Rat)) :=
  ⟨by decide, by decide, by decide,
   (C8_projection [⟨100, 20100⟩, ⟨50, 20130⟩] 300 (by decide) (by decide)
     (by decide)).1⟩

/-- C1 (amended): for every parsed result with `need_followup = true` *and a
non-empty followup question string* (the parse endpoint guarantees the
question is a string, possibly empty, whenever `need_followup` is true),
the chat flow surfaces the question and returns without invoking the action
executor — no loan-manager call, hence no backend mutation, occurs.  (With
an empty question the flow falls through; see the counterexample.) -/
theorem C1_followup_no_execution (p : RespBody) (hnf : p.need_followup = true)
    (q : String) (hq : p.followup_question = some q) (hne : q ≠ "") :
    onSendFlow p = .followupQ q ∧ onSendEdgeCall p = none := by
  have hflow : onSendFlow p = .followupQ q := by
    unfold onSendFlow
    rw [hnf, hq]
    simp [hne]
  exact ⟨hflow, by unfold onSendEdgeCall; rw [hflow]⟩

/-- Witness for C1’s amended statement at a concrete follow-up response. -/
theorem C1_followup_no_execution_witness :
    (RespBody.mk (Json.str "add_payment") (Json.obj []) "m" true
        (some "Which loan?")).need_followup = true ∧
    (RespBody.mk (Json.str "add_payment") (Json.obj []) "m" true
        (some "Which loan?")).followup_question = some "Which loan?" ∧
    ("Which loan?" : String) ≠ "" ∧
    onSendEdgeCall (RespBody.mk (Json.str "add_payment") (Json.obj []) "m" true
        (some "Which loan?")) = none :=
  ⟨rfl, rfl, by decide,
   (C1_followup_no_execution
     (RespBody.mk (Json.str "add_payment") (Json.obj []) "m" true
       (some "Which loan?")) rfl "Which loan?" rfl (by decide)).2⟩

/-- Counterexample to C1 as stated: a model output with
`need_followup = true` but an empty `followup_question` and complete
add_payment parameters passes the parse endpoint (200, `need_followup`
still true), the chat flow’s `parsed.need_followup && parsed.followup_question`
test fails on the empty string, execution proceeds, and the Edge Function
inserts a payment — a backend mutation despite `need_followup = true`. -/
theorem C1_counterexample :
    (handler true "POST" cmdBody (.ok mkPayload) (mkParse parsedNF)).1 = 200 ∧
    (handler true "POST" cmdBody (.ok mkPayload) (mkParse parsedNF)).2.need_followup = true ∧
    (handler true "POST" cmdBody (.ok mkPayload) (mkParse parsedNF)).2.followup_question =
      some "" ∧
    onSendEdgeCall ((handler true "POST" cmdBody (.ok mkPayload) (mkParse parsedNF)).2) =
      some (Json.obj [("action", Json.str "add_payment"),
                      ("loan_name", Json.str "Couch"),
                      ("amount", Json.num 50),
                      ("paid_by", Json.str "Steven")]) ∧
    (serve 0 true dbW (Json.obj [("action", Json.str "add_payment"),
                                 ("loan_name", Json.str "Couch"),
                                 ("amount", Json.num 50),
                                 ("paid_by", Json.str "Steven")])).2.payments.length =
      dbW.payments.length + 1 :=
  ⟨rfl, rfl, rfl, rfl, rfl⟩

/-- C6: when the upstream service’s response yields no parseable JSON
object (no extractor succeeds, or the extracted value is not object-like),
the parse endpoint returns HTTP 502 with the uniform failure body — and
every non-200 response of the handler, whatever its status, is exactly the
five-field failure shape: `action = "unknown"`, empty `parameters`,
`need_followup = false`, `followup_question = null`, plus a message.  The
handler is a total function, so no input makes it throw. -/
theorem C6_parse_failure_shape :
    (∀ (parseJson : String → Option Json) (reqBody payload : Json) (c : String),
       jGet reqBody "command" = some (Json.str c) → c ≠ "" →
       (extractJSON parseJson payload = none ∨
        ∃ j, extractJSON parseJson payload = some j ∧ objLike j = false) →
       handler true "POST" reqBody (.ok payload) parseJson =
         (502, badBody "Parser returned no JSON.")) ∧
    (∀ (apiKeySet : Bool) (method : String) (reqBody : Json) (up : Upstream)
       (parseJson : String → Option Json),
       (handler apiKeySet method reqBody up parseJson).1 ≠ 200 →
       ∃ m, (handler apiKeySet method reqBody up parseJson).2 = badBody m ∧
         (badBody m).action = Json.str "unknown" ∧
         (badBody m).parameters = Json.obj [] ∧
         (badBody m).need_followup = false ∧
         (badBody m).followup_question = none ∧
         (badBody m).message = m) := by
  constructor
  · intro parseJson reqBody payload c hcmd hc hext
    have h1 : handler true "POST" reqBody (.ok payload) parseJson =
        handlerUpstream (.ok payload) parseJson := by
      unfold handler
      rw [hcmd]
      simp [hc]
    rw [h1]
    unfold handlerUpstream
    dsimp only
    rcases hext with he | ⟨j, he, hobj⟩
    · rw [he]
    · rw [he]
      dsimp only
      simp [hobj]
  · intro apiKeySet method reqBody up parseJson hne
    rcases handler_failure_shape apiKeySet method reqBody up parseJson with h | ⟨m, hm⟩
    · exact absurd h hne
    · exact ⟨m, hm, rfl, rfl, rfl, rfl, rfl⟩

/-- Witness for C6: a well-formed request whose upstream payload holds no
extractable JSON yields exactly the 502 failure body. -/
theorem C6_parse_failure_shape_witness :
    jGet (Json.obj [("command", Json.str "hi")]) "command" = some (Json.str "hi") ∧
    ("hi" : String) ≠ "" ∧
    extractJSON (fun _ => none) (Json.obj []) = none ∧
    handler true "POST" (Json.obj [("command", Json.str "hi")])
        (.ok (Json.obj [])) (fun _ => none) =
      (502, badBody "Parser returned no JSON.") :=
  ⟨rfl, by decide, rfl,
   C6_parse_failure_shape.1 (fun _ => none) (Json.obj [("command", Json.str "hi")])
     (Json.obj []) "hi" rfl (by decide) (Or.inl rfl)⟩

theorem actionIs_create : actionIs (some (Json.str "create_loan")) "create_loan" = true := rfl

theorem actionIs_create_add : actionIs (some (Json.str "create_loan")) "add_payment" = false := rfl

theorem actionIs_create_del : actionIs (some (Json.str "create_loan")) "delete_loan" = false := rfl

theorem truthyO_create : truthyO (some (Json.str "create_loan")) = true := rfl

/-- C2 (amended): required-field validation for create_loan, per layer.
At the parse endpoint, with `need_followup = false`, an absent-or-falsy
value for any of `loan_name`, `amount`, `loan_date`, `term_months` yields
HTTP 400 with a failure body.  The UI-side guard checks the presence of
`loan_name`/`loan_date` and the *numeric type* of `amount`/`term_months`:
when anything is missing it returns the chat error listing exactly the
missing fields and sends nothing; otherwise it forwards exactly the given
four values (only `loan_type` is defaulted).  The action endpoint likewise
checks a numeric `original_amount` rather than truthiness, rejects with a
`{success:false}` 400 on its validation failure without touching the store,
and on success inserts exactly the given values (balance = amount).  Hence
the falsy-but-numeric amount 0 passes the UI guard and the action endpoint
(see the counterexample) and only the parse endpoint rejects it; no default
is synthesized for any of the four fields at any layer. -/
theorem C2_create_loan_validation :
    (∀ (parsed : Json) (msg : String),
       jGet parsed "message" = some (Json.str msg) →
       jGet parsed "need_followup" = some (Json.bool false) →
       jGet parsed "action" = some (Json.str "create_loan") →
       (truthyO (jGet ((jGet parsed "parameters").getD Json.null) "loan_name") = false ∨
        truthyO (jGet ((jGet parsed "parameters").getD Json.null) "amount") = false ∨
        truthyO (jGet ((jGet parsed "parameters").getD Json.null) "loan_date") = false ∨
        truthyO (jGet ((jGet parsed "parameters").getD Json.null) "term_months") = false) →
       ∃ m, handlerValidate parsed = (400, badBody m)) ∧
    (∀ p : RespBody, p.action = Json.str "create_loan" →
       (uiCreateMissing p.parameters ≠ [] →
         uiExecuteCall p = .errMsg (uiMissingMsg (uiCreateMissing p.parameters))) ∧
       (uiCreateMissing p.parameters = [] →
         uiExecuteCall p = .edgeCall (Json.obj
           [("action", Json.str "create_loan"),
            ("name", (jGet p.parameters "loan_name").getD Json.null),
            ("original_amount", (jGet p.parameters "amount").getD Json.null),
            ("loan_type",
             if truthyO (jGet p.parameters "loan_type") then
               (jGet p.parameters "loan_type").getD Json.null
             else Json.str "general"),
            ("term_months", (jGet p.parameters "term_months").getD Json.null),
            ("loan_date", (jGet p.parameters "loan_date").getD Json.null)]))) ∧
    (∀ (db : DB) (body : Json),
       (truthyO (jGet body "name") = false ∨
        isNumO (jGet body "original_amount") = false ∨
        (match jGet body "loan_date" with
         | some (Json.str s) => isISODate s
         | _ => false) = false ∨
        (match jGet body "term_months" with
         | some (Json.num t) => decide (0 < t)
         | _ => false) = false) →
       serveCreateLoan db body =
         (.err 400 "create_loan requires name, numeric original_amount, loan_date (YYYY-MM-DD), and positive term_months.", db)) ∧
    (∀ (db : DB) (nm : String) (oa : Rat) (ld : String) (tm : Rat),
       nm ≠ "" → isISODate ld = true → 0 < tm →
       serveCreateLoan db (createBody nm oa ld tm) =
         (.ok 201 (.loanData ⟨"loan-" ++ toString db.nextId, nm, oa, oa, "general", tm, ld⟩),
          { db with
            loans := db.loans ++
              [⟨"loan-" ++ toString db.nextId, nm, oa, oa, "general", tm, ld⟩],
            nextId := db.nextId + 1 })) := by
  refine ⟨?_, ?_, ?_, ?_⟩
  · intro parsed msg hmsg hnf hact hfour
    unfold handlerValidate
    rw [hmsg, hnf, hact]
    rcases hpv : jGet parsed "parameters" with _ | v
    · exact ⟨"Missing loan_name or amount for create_loan.",
        by simp [paramsOrEmpty, jGet, lookupField, actionIs_create,
          actionIs_create_add, actionIs_create_del, truthyO_create, isStrO, isNumO]⟩
    · rcases htv : jsTruthy v with _ | _
      · exact ⟨"Missing loan_name or amount for create_loan.",
          by simp [paramsOrEmpty, htv, jGet, lookupField, actionIs_create,
            actionIs_create_add, actionIs_create_del, truthyO_create, isStrO, isNumO]⟩
      · rw [hpv] at hfour
        simp only [Option.getD_some] at hfour
        by_cases hmin : isStrO (jGet v "loan_name") = false ∨
            isNumO (jGet v "amount") = false
        · refine ⟨"Missing loan_name or amount for create_loan.", ?_⟩
          rcases hmin with h | h <;>
            simp [paramsOrEmpty, htv, h, actionIs_create, actionIs_create_add,
              actionIs_create_del, truthyO_create]
        · push_neg at hmin
          obtain ⟨hstr0, hnum0⟩ := hmin
          have hstr : isStrO (jGet v "loan_name") = true := by
            cases h : isStrO (jGet v "loan_name")
            · exact absurd h hstr0
            · rfl
          have hnum : isNumO (jGet v "amount") = true := by
            cases h : isNumO (jGet v "amount")
            · exact absurd h hnum0
            · rfl
          refine ⟨"Missing required fields for create_loan.", ?_⟩
          have hor : (!truthyO (jGet v "loan_name") ||
              (!truthyO (jGet v "amount") ||
               (!truthyO (jGet v "loan_date") ||
                !truthyO (jGet v "term_months")))) = true := by
            rcases hfour with h | h | h | h <;> simp [h]
          simp [paramsOrEmpty, htv, hstr, hnum, hor, actionIs_create,
            actionIs_create_add, actionIs_create_del, truthyO_create]
          intro h1 h2 h3
          simpa [h1, h2, h3] using hor
  · intro p hact
    unfold uiExecuteCall
    rw [hact]
    constructor
    · intro hmiss
      simp [hmiss]
    · intro hmiss
      simp [hmiss]
  · intro db body hfour
    unfold serveCreateLoan
    rcases hfour with h | h | h | h <;> simp [h]
  · intro db nm oa ld tm hnm hld htm
    unfold serveCreateLoan
    simp [createBody, jGet, lookupField, hnm, hld, htm]
    exact ⟨by simp [truthyO, jsTruthy, hnm], rfl⟩

/-- Witness for C2’s amended statement: a parsed create_loan command whose
`loan_date` is absent is rejected 400 by the parse endpoint; the UI guard
lists the missing date; the action endpoint rejects a zero `term_months`
and accepts a fully valid body inserting exactly the given values. -/
theorem C2_create_loan_validation_witness :
    (∃ m, handlerValidate (Json.obj
       [("action", Json.str "create_loan"),
        ("parameters", Json.obj [("loan_name", Json.str "Couch"),
                                 ("amount", Json.num 757)]),
        ("message", Json.str "ok"),
        ("need_followup", Json.bool false)]) = (400, badBody m)) ∧
    serveCreateLoan dbW (createBody "Couch" 757 "2025-08-23" 0) =
      (.err 400 "create_loan requires name, numeric original_amount, loan_date (YYYY-MM-DD), and positive term_months.", dbW) ∧
    serveCreateLoan dbW (createBody "Couch" 757 "2025-08-23" 48) =
      (.ok 201 (.loanData ⟨"loan-" ++ toString dbW.nextId, "Couch", 757, 757, "general", 48, "2025-08-23"⟩),
       { dbW with
         loans := dbW.loans ++
           [⟨"loan-" ++ toString dbW.nextId, "Couch", 757, 757, "general", 48, "2025-08-23"⟩],
         nextId := dbW.nextId + 1 }) :=
  ⟨C2_create_loan_validation.1 (Json.obj
       [("action", Json.str "create_loan"),
        ("parameters", Json.obj [("loan_name", Json.str "Couch"),
                                 ("amount", Json.num 757)]),
        ("message", Json.str "ok"),
        ("need_followup", Json.bool false)]) "ok" rfl rfl rfl
     (Or.inr (Or.inr (Or.inl rfl))),
   C2_create_loan_validation.2.2.1 dbW (createBody "Couch" 757 "2025-08-23" 0)
     (Or.inr (Or.inr (Or.inr (by decide)))),
   C2_create_loan_validation.2.2.2 dbW "Couch" 757 "2025-08-23" 48
     (by decide) (by decide) (by decide)⟩

/-- Counterexample to C2 as stated: `amount = 0` is falsy yet numeric.  The
UI-side guard reports nothing missing, and the action endpoint accepts the
body and creates a loan with `original_amount = 0` (`success, 201`) instead
of failing validation — the claim’s all-layer "absent or falsy ⟹ failure"
does not hold at those two layers form the amount field. -/
theorem C2_counterexample :
    truthyO (jGet (Json.obj
      [("loan_name", Json.str "Mirror"), ("amount", Json.num 0),
       ("loan_date", Json.str "2025-08-23"), ("term_months", Json.num 48)])
      "amount") = false ∧
    uiCreateMissing (Json.obj
      [("loan_name", Json.str "Mirror"), ("amount", Json.num 0),
       ("loan_date", Json.str "2025-08-23"), ("term_months", Json.num 48)]) = [] ∧
    (serve 0 true dbW (createBody "Mirror" 0 "2025-08-23" 48)).1 =
      .ok 201 (.loanData ⟨"loan-2", "Mirror", 0, 0, "general", 48, "2025-08-23"⟩) ∧
    (serve 0 true dbW (createBody "Mirror" 0 "2025-08-23" 48)).2.loans =
      dbW.loans ++ [⟨"loan-2", "Mirror", 0, 0, "general", 48, "2025-08-23"⟩] :=
  ⟨by decide, by decide, by decide, by decide⟩

/-- Counterexample to C4 as stated: for a loan named "Tesla Model 3" and
the lookup "tesla", the chat UI’s three-tier match finds the loan by the
prefix tier, but `add_payment` by `loan_name` does not: the Edge Function’s
`ILIKE`-based resolver (no wildcards) matches nothing, and the outcome is
the fixed error "add_payment requires loan_id or valid loan_name." —
not a count-naming not-found message — so name-targeted `add_payment` is
not resolved by the three-tier fuzzy match. -/
theorem C4_counterexample :
    uiFindTarget ["Tesla Model 3"] "tesla" = some "Tesla Model 3" ∧
    resolveLoanIdByName dbTesla "tesla" = none ∧
    (serve 0 true dbTesla (payBodyName "tesla" 50)).1 =
      .err 400 "add_payment requires loan_id or valid loan_name." ∧
    (serve 0 true dbTesla (payBodyName "tesla" 50)).2 = dbTesla :=
  ⟨by decide, by decide, by decide, by decide⟩

theorem max_zero_sub_absorb (x s : Rat) (hs : 0 ≤ s) :
    max 0 (max 0 x - s) = max 0 (x - s) := by
  rcases le_or_lt x 0 with hx | hx
  · rw [max_eq_left hx, zero_sub, max_eq_left (by linarith), max_eq_left (by linarith)]
  · rw [max_eq_right hx.le]

/-- One `serve` call on a singleton store: `add_payment` floors the balance
at zero on both decrement paths. -/
theorem serve_single_loan_step (nowMs : Int) (rpc : Bool) (l : LoanRow)
    (hid : l.id ≠ "") (pay : List PaymentRow) (n : Nat) (a : Rat) (ha : 0 < a) :
    (serve nowMs rpc ⟨[l], pay, n⟩ (payBodyId l.id a)).2 =
      ⟨[{ l with current_balance := max 0 (l.current_balance - a) }],
       pay ++ [⟨l.id, a, "Steven", isoDateStringOfMs nowMs⟩], n⟩ := by
  rw [serve_payBodyId nowMs rpc ⟨[l], pay, n⟩ l (List.mem_singleton.mpr rfl) hid a ha]
  simp only [List.map_cons, List.map_nil, if_pos rfl]
  rcases rpc with _ | _ <;> rfl

/-- Folding floored decrements equals a single floored decrement by the
total, for a nonnegative start and nonnegative amounts. -/
theorem foldl_floor (amts : List Rat) :
    ∀ b : Rat, 0 ≤ b → (∀ a ∈ amts, 0 ≤ a) →
    amts.foldl (fun x a => max 0 (x - a)) b = max 0 (b - amts.sum) := by
  induction amts with
  | nil => intro b hb _; simp [max_eq_right hb]
  | cons a t ih =>
    intro b hb hpos
    have hs : 0 ≤ t.sum :=
      List.sum_nonneg (fun x hx => hpos x (List.mem_cons_of_mem a hx))
    rw [List.foldl_cons, ih (max 0 (b - a)) (le_max_left 0 (b - a))
      (fun x hx => hpos x (List.mem_cons_of_mem a hx)),
      max_zero_sub_absorb (b - a) t.sum hs, List.sum_cons, sub_sub]

/-- The loan list after a run of `add_payment` calls on a singleton store. -/
theorem runPayments_loans (nowMs : Int) (ps : List (Rat × Bool)) :
    ∀ (l : LoanRow), l.id ≠ "" → (∀ x ∈ ps, 0 < x.1) →
    ∀ (pay : List PaymentRow) (n : Nat),
    ∃ pay2, runPayments nowMs l.id ⟨[l], pay, n⟩ ps =
      ⟨[{ l with current_balance := ((ps.map (fun x => x.1)).foldl
            (fun x a => max 0 (x - a)) l.current_balance) }], pay2, n⟩ := by
  induction ps with
  | nil =>
    intro l _ _ pay n
    exact ⟨pay, rfl⟩
  | cons x t ih =>
    intro l hid hpos pay n
    have hx : 0 < x.1 := hpos x (List.mem_cons_self x t)
    have step := serve_single_loan_step nowMs x.2 l hid pay n x.1 hx
    have hrun : runPayments nowMs l.id ⟨[l], pay, n⟩ (x :: t) =
        runPayments nowMs l.id
          ⟨[{ l with current_balance := max 0 (l.current_balance - x.1) }],
           pay ++ [⟨l.id, x.1, "Steven", isoDateStringOfMs nowMs⟩], n⟩ t := by
      simp only [runPayments, List.foldl_cons]
      rw [step]
    rw [hrun]
    obtain ⟨pay2, h2⟩ := ih { l with current_balance := max 0 (l.current_balance - x.1) }
      hid (fun y hy => hpos y (List.mem_cons_of_mem x hy))
      (pay ++ [⟨l.id, x.1, "Steven", isoDateStringOfMs nowMs⟩]) n
    exact ⟨pay2, by rw [h2]; rfl⟩

/-- C3: for every loan and every sequence of successful `add_payment` calls
against it (under any mix of the RPC decrement path and the read-then-write
fallback), the balance after the run is `max 0 (original − total)`: it stays
nonnegative, and equals exactly 0 once the cumulative amounts meet or exceed
`original_amount`; moreover both decrement paths are the same floored
subtraction. -/
theorem C3_balance_floor (nm lt ld : String) (tm oa : Rat) (hoa : 0 ≤ oa)
    (nowMs : Int) (ps : List (Rat × Bool)) (hpos : ∀ x ∈ ps, 0 < x.1) :
    (∀ b a : Rat, decrement_loan_balance b a = max 0 (b - a) ∧
       fallbackBalance b a = max 0 (b - a)) ∧
    ∃ pay2, runPayments nowMs "L1" ⟨[⟨"L1", nm, oa, oa, lt, tm, ld⟩], [], 1⟩ ps =
      ⟨[⟨"L1", nm, oa, max 0 (oa - (ps.map (fun x => x.1)).sum), lt, tm, ld⟩],
       pay2, 1⟩ ∧
      0 ≤ max 0 (oa - (ps.map (fun x => x.1)).sum) ∧
      ((ps.map (fun x => x.1)).sum ≥ oa →
        max 0 (oa - (ps.map (fun x => x.1)).sum) = 0) := by
  refine ⟨fun b a => ⟨rfl, rfl⟩, ?_⟩
  obtain ⟨pay2, hrun⟩ := runPayments_loans nowMs ps ⟨"L1", nm, oa, oa, lt, tm, ld⟩
    (by simp) hpos [] 1
  rw [foldl_floor (ps.map (fun x => x.1)) oa hoa
    (fun a hamem => by
      obtain ⟨x, hx, rfl⟩ := List.mem_map.mp hamem
      exact (hpos x hx).le)] at hrun
  exact ⟨pay2, hrun, le_max_left _ _,
    fun hge => max_eq_left (by linarith)⟩

/-- Witness for C3: a 500 loan fully paid by 200 (RPC path), 250 (fallback
path) and 100 (RPC path) ends exactly at balance 0. -/
theorem C3_balance_floor_witness :
    (0 : Rat) ≤ 500 ∧ (∀ x ∈ [((200 : Rat), true), (250, false), (100, true)], 0 < x.1) ∧
    ∃ pay2,
      runPayments 0 "L1" ⟨[⟨"L1", "Couch", 500, 500, "general", 12, "2025-01-01"⟩], [], 1⟩
        [((200 : Rat), true), (250, false), (100, true)] =
        ⟨[⟨"L1", "Couch", 500,
            max 0 (500 - ([((200 : Rat), true), (250, false), (100, true)].map (fun x => x.1)).sum),
            "general", 12, "2025-01-01"⟩], pay2, 1⟩ ∧
        0 ≤ max 0 (500 - ([((200 : Rat), true), (250, false), (100, true)].map (fun x => x.1)).sum) ∧
        (([((200 : Rat), true), (250, false), (100, true)].map (fun x => x.1)).sum ≥ 500 →
          max 0 (500 - ([((200 : Rat), true), (250, false), (100, true)].map (fun x => x.1)).sum) = 0) :=
  ⟨by decide, by decide,
   (C3_balance_floor "Couch" "general" "2025-01-01" 12 500 (by decide) 0
     [((200 : Rat), true), (250, false), (100, true)] (by decide)).2⟩
